import Mathlib

/-!
Verification development for the orchestration core of the ZhiShu platform:
a shallow embedding of `src/MCP/client_framework.py` (resilient RPC client,
service registry with health probes) and `src/workflow/engine.py` (DAG
workflow engine), together with theorems settling the specification's
claims about them.

Network and clock effects are modelled by explicit environments: every
HTTP interaction's outcome (response status + body, timeout, or raised
exception) is a parameter, and `time.time()` / `datetime.now()` readings
are abstract `Nat` instants supplied by the environment.  Python `while`
loops that may run forever are given a fuel parameter; a result of `none`
means the loop did not finish within the given fuel (so `∀ fuel, … = none`
expresses non-termination).
-/

set_option maxRecDepth 4096

/-- JSON-like values exchanged on the wire and stored in step parameters /
results.  Python `None` is modelled as an absent `Option` at use sites, so
there is no separate null constructor.  Decimal literals of the source
(e.g. `0.85`, `15.2`) are modelled by `dec` in hundredths. -/
inductive JsonVal where
  | bool (b : Bool)
  | num (n : Int)
  | dec (hundredths : Int)
  | str (s : String)
  | arr (xs : List JsonVal)
  | obj (fields : List (String × JsonVal))

namespace JsonVal

/-- `d.get(k)` on a Python dict: `none` when the key is absent. -/
def get : JsonVal → String → Option JsonVal
  | .obj fs, k => fs.lookup k
  | _, _ => none

/-- `d.get(k, default)` on a Python dict. -/
def getD (j : JsonVal) (k : String) (d : JsonVal) : JsonVal :=
  (j.get k).getD d

/-- Python truthiness of a JSON value (`if execution_id:`). -/
def truthy : JsonVal → Bool
  | .bool b => b
  | .num n => n != 0
  | .dec c => c != 0
  | .str s => !s.isEmpty
  | .arr xs => !xs.isEmpty
  | .obj fs => !fs.isEmpty

/-- Test `v == "s"` as Python compares a JSON value with a string literal. -/
def isStr : JsonVal → String → Bool
  | .str t, s => t == s
  | _, _ => false

/-- Python `str(v)` as used in f-strings; compound values are rendered
opaquely (their text never matters to any claim). -/
def render : JsonVal → String
  | .bool b => if b then "True" else "False"
  | .num n => toString n
  | .dec c => toString c
  | .str s => s
  | .arr _ => "<list>"
  | .obj _ => "<dict>"

end JsonVal

/-- Truthiness of an optional value (Python `None` is falsy). -/
def optTruthy : Option JsonVal → Bool
  | none => false
  | some v => v.truthy

/-- `d.get(k) == "s"` in Python (a missing key is `None`, never equal). -/
def optIsStr (o : Option JsonVal) (s : String) : Bool :=
  match o with
  | some v => v.isStr s
  | none => false

/-- Read a string-valued key with a default (`params.get(k, d)` where the
source then uses the value as a string; non-string values do not occur in
the repository's parameter bags). -/
def getStrD (j : JsonVal) (k : String) (d : String) : String :=
  match j.get k with
  | some (.str s) => s
  | _ => d

/-- Python's `"pat" in s` substring test. -/
def strContains (s pat : String) : Bool :=
  (s.splitOn pat).length > 1

namespace MCPC

/-- `ServiceStatus` enum of `client_framework.py`. -/
inductive ServiceStatus where
  | healthy | degraded | unhealthy | unknown
deriving DecidableEq, Repr

/-- `ServiceEndpoint` dataclass.  Timestamps and durations are abstract
`Nat` instants. -/
structure ServiceEndpoint where
  name : String
  url : String
  health_check_url : String
  status : ServiceStatus := .unknown
  last_check : Nat := 0
  response_time : Nat := 0
  error_count : Nat := 0
  max_errors : Nat := 3
  timeout : Nat := 30
deriving DecidableEq, Repr

/-- `MCPCallResult` dataclass.  The `error` field holds the JSON value the
source assigns (always a string in practice). -/
structure MCPCallResult where
  success : Bool
  data : Option JsonVal := none
  error : Option JsonVal := none
  execution_id : Option JsonVal := none
  service_name : Option String := none
  tool_name : Option String := none
  duration : Nat := 0

/-- The registry: `self.services`, an association list keyed by name. -/
abbrev Services := List (String × ServiceEndpoint)

/-- In-place mutation of `self.services[name]`'s fields: replace the
binding for `name`. -/
def setService (svcs : Services) (name : String) (e : ServiceEndpoint) : Services :=
  svcs.map (fun p => bif p.1 == name then (p.1, e) else p)

/-- Outcome of one HTTP request: a response (status, parsed JSON body, raw
text), an `asyncio.TimeoutError`, or some other raised exception. -/
inductive HttpOutcome where
  | resp (status : Nat) (body : JsonVal) (text : String)
  | timeout
  | exn (msg : String)

/-- Environment of one `call_service` invocation: outcome of the
`POST /execute` request, outcome of the k-th `GET /status/{id}` poll,
elapsed time `time.time() - start_time` observed before the k-th poll
iteration, and the elapsed time observed when the call returns. -/
structure CallEnv where
  execOutcome : HttpOutcome
  pollOutcome : Nat → HttpOutcome
  pollElapsed : Nat → Nat
  elapsed : Nat

/-- `_wait_for_completion`, iterating from poll index `k` with `fuel`
remaining loop iterations.  Returns the result together with the number of
status polls actually issued; `none` means the loop did not finish within
`fuel` iterations.  Exceptions raised inside the loop body (including a
poll timeout) are caught by its `except Exception` clause, so this
function never raises. -/
def wait_for_completion (env : CallEnv) (execution_id : JsonVal) (timeout : Nat)
    (k : Nat) : Nat → Option (MCPCallResult × Nat)
  | 0 => none
  | fuel + 1 =>
    if env.pollElapsed k > timeout then
      some ({ success := false,
              error := some (.str s!"Execution {execution_id.render} timed out"),
              execution_id := some execution_id }, k)
    else
      match env.pollOutcome k with
      | .resp s body _ =>
        if s == 200 then
          if optIsStr (body.get "status") "completed" then
            some ({ success := true,
                    data := body.get "result",
                    execution_id := some execution_id }, k + 1)
          else if optIsStr (body.get "status") "failed" then
            some ({ success := false,
                    error := some ((body.get "error").getD (.str "Execution failed")),
                    execution_id := some execution_id }, k + 1)
          else if optIsStr (body.get "status") "cancelled" then
            some ({ success := false,
                    error := some (.str "Execution cancelled"),
                    execution_id := some execution_id }, k + 1)
          else
            -- await asyncio.sleep(poll_interval); continue waiting
            wait_for_completion env execution_id timeout (k + 1) fuel
        else
          some ({ success := false,
                  error := some (.str s!"Failed to get status: HTTP {s}") }, k + 1)
      | .timeout =>
        -- caught by `except Exception as e`; str(asyncio.TimeoutError()) = ""
        some ({ success := false,
                error := some (.str "Status check failed: ") }, k + 1)
      | .exn e =>
        some ({ success := false,
                error := some (.str s!"Status check failed: {e}") }, k + 1)

/-- A Python exception escaping the `try:` block of `call_service`. -/
inductive PyExc where
  | timeoutError
  | exn (msg : String)

/-- The result computed inside the `async with … as response:` block of
`call_service` for a received response, before the service-state update:
immediate completion, the poll loop for a `running` response carrying a
truthy execution id, the missing-execution-id failure, and the non-200
failure.  `none` means the poll loop never returned within its fuel. -/
def respInner (env : CallEnv) (status : Nat) (body : JsonVal) (text : String)
    (timeout_val fuel : Nat) : Option (MCPCallResult × Nat) :=
  if status == 200 then
    if optIsStr (body.get "status") "running" then
      if optTruthy (body.get "execution_id") then
        wait_for_completion env ((body.get "execution_id").getD (.str ""))
          timeout_val 0 fuel
      else
        some ({ success := false, error := some (.str "No execution ID returned") }, 0)
    else
      some ({ success := true, data := some body,
              execution_id := body.get "execution_id" }, 0)
  else
    some ({ success := false,
            error := some (.str s!"HTTP {status}: {text}") }, 0)

/-- The body of `call_service`'s `try:` block, after the registry lookup
and circuit check have passed.  `.error` is a raised exception (handled by
the `except` clauses of `call_service`); `.ok none` means the inner poll
loop ran out of fuel (never returned).  On success it yields the updated
endpoint (status Healthy, error count 0, recorded latency), the result,
and the number of status polls issued. -/
def callBody (service : ServiceEndpoint) (service_name tool_name : String)
    (env : CallEnv) (timeout_val : Nat) (fuel : Nat) :
    Except PyExc (Option (ServiceEndpoint × MCPCallResult × Nat)) :=
  match env.execOutcome with
  | .timeout => .error .timeoutError
  | .exn e => .error (.exn e)
  | .resp status body text =>
    match respInner env status body text timeout_val fuel with
    | none => .ok none
    | some (res, polls) =>
      -- 更新服务状态 (runs for every received response, before returning)
      let service' := { service with
        response_time := env.elapsed,
        error_count := 0,
        status := .healthy }
      let result' := { res with
        duration := env.elapsed,
        service_name := some service_name,
        tool_name := some tool_name }
      .ok (some (service', result', polls))

/-- `call_service`: the resilient RPC client's single entry point.
Returns the updated registry, the `MCPCallResult`, and the number of HTTP
requests issued (0 on the refusal paths — "without any network attempt");
`none` means the internal poll loop never returned within `fuel`
iterations.  The `@backoff.on_exception` decorator on the source function
is inert because the body catches every exception itself. -/
def call_service (services : Services) (service_name tool_name : String)
    (parameters : JsonVal) (timeout : Option Nat) (env : CallEnv) (fuel : Nat) :
    Option (Services × MCPCallResult × Nat) :=
  match services.lookup service_name with
  | none =>
    some (services,
      { success := false,
        error := some (.str s!"Service \x27{service_name}\x27 not found") }, 0)
  | some service =>
    if service.status = ServiceStatus.unhealthy then
      some (services,
        { success := false,
          error := some (.str s!"Service \x27{service_name}\x27 is unhealthy") }, 0)
    else
      let timeout_val := timeout.getD service.timeout
      match callBody service service_name tool_name env timeout_val fuel with
      | .ok none => none
      | .ok (some (service', result', polls)) =>
        some (setService services service_name service', result', 1 + polls)
      | .error .timeoutError =>
        -- except asyncio.TimeoutError: count incremented, status untouched
        let service' := { service with error_count := service.error_count + 1 }
        some (setService services service_name service',
          { success := false,
            error := some (.str s!"Request to \x27{service_name}\x27 timed out"),
            service_name := some service_name,
            tool_name := some tool_name,
            duration := env.elapsed }, 1)
      | .error (.exn e) =>
        -- except Exception: count incremented; Unhealthy once it reaches the threshold
        let ec := service.error_count + 1
        let service' := { service with
          error_count := ec,
          status := if ec ≥ service.max_errors then ServiceStatus.unhealthy
                    else service.status }
        some (setService services service_name service',
          { success := false,
            error := some (.str s!"Request to \x27{service_name}\x27 failed: {e}"),
            service_name := some service_name,
            tool_name := some tool_name,
            duration := env.elapsed }, 1)

/-- Environment of one `health_check` probe: outcome of the GET on the
health URL and the `time.time()` instant recorded as `last_check`. -/
structure ProbeEnv where
  outcome : HttpOutcome
  now : Nat

/-- `health_check`: one probe of a registered service.  All exceptions
(timeouts included) are caught by its `except Exception` clause, so the
probe never raises; it always returns the updated registry and a Bool. -/
def health_check (services : Services) (service_name : String) (env : ProbeEnv) :
    Services × Bool :=
  match services.lookup service_name with
  | none => (services, false)
  | some service =>
    match env.outcome with
    | .resp s _ _ =>
      let is_healthy := s == 200
      (setService services service_name
        { service with
          status := if is_healthy then ServiceStatus.healthy else ServiceStatus.unhealthy,
          last_check := env.now },
        is_healthy)
    | _ =>
      (setService services service_name
        { service with status := ServiceStatus.unhealthy, last_check := env.now },
        false)

/-- One operation a caller can perform against the client framework,
with the environment that determines its remote outcome. -/
inductive ClientOp where
  | call (service_name tool_name : String) (parameters : JsonVal)
         (timeout : Option Nat) (env : CallEnv) (fuel : Nat)
  | probe (service_name : String) (env : ProbeEnv)

/-- Run one operation, returning the updated registry (`none` when a
call's poll loop never returns). -/
def runOp (services : Services) : ClientOp → Option Services
  | .call sn tn p t env fuel =>
    (call_service services sn tn p t env fuel).map (fun r => r.1)
  | .probe sn env => some (health_check services sn env).1

/-- Run a sequence of operations. -/
def runOps (services : Services) : List ClientOp → Option Services
  | [] => some services
  | op :: rest =>
    match runOp services op with
    | none => none
    | some services' => runOps services' rest

/-- Does this operation probe `target` with a 200 response (a successful
probe of that service)? -/
def succeedsProbe (target : String) : ClientOp → Bool
  | .probe n env =>
    n == target &&
      (match env.outcome with
       | .resp s _ _ => s == 200
       | _ => false)
  | _ => false

end MCPC


namespace WFE

/-- `StepStatus` enum of `engine.py`. -/
inductive StepStatus where
  | pending | running | completed | failed | cancelled
deriving DecidableEq, Repr

/-- `WorkflowStatus` enum of `engine.py`. -/
inductive WorkflowStatus where
  | pending | running | completed | failed | cancelled
deriving DecidableEq, Repr

/-- Rank of a step status along the forward lifecycle
Pending → Running → terminal. -/
def statusRank : StepStatus → Nat
  | .pending => 0
  | .running => 1
  | .completed => 2
  | .failed => 2
  | .cancelled => 2

/-- `WorkflowStep` dataclass.  Timestamps are abstract `Nat` instants. -/
structure WorkflowStep where
  id : String
  name : String
  description : String
  step_type : String
  parameters : JsonVal
  dependencies : List String
  status : StepStatus := .pending
  result : Option JsonVal := none
  error : Option String := none
  start_time : Option Nat := none
  end_time : Option Nat := none
  execution_time : Option Nat := none

/-- `WorkflowInstance` dataclass. -/
structure WorkflowInstance where
  id : String
  workflow_name : String
  parameters : JsonVal
  steps : List WorkflowStep
  status : WorkflowStatus := .pending
  current_step : Option String := none
  start_time : Option Nat := none
  end_time : Option Nat := none
  total_execution_time : Option Nat := none

/-- Render an optional JSON value the way a Python f-string renders it
(`None` for a missing value). -/
def optRender : Option JsonVal → String
  | some v => v.render
  | none => "None"

/-- A Python value that may be `None`, stored into a result dict.  `None`
is rendered opaquely (no claim inspects these fields). -/
def optVal : Option JsonVal → JsonVal
  | some v => v
  | none => .str "None"

/-- A JSON value used as a Python list (`.get("services", [])`). -/
def asList : Option JsonVal → List JsonVal
  | some (.arr xs) => xs
  | _ => []

/-- `_execute_data_fetch_step`: returns mock data keyed off the
`data_type` parameter; `clock` stands for `datetime.now()`. -/
def execute_data_fetch_step (step : WorkflowStep) (inst : WorkflowInstance)
    (clock : Nat) : JsonVal :=
  let data_type := getStrD step.parameters "data_type" "unknown"
  let location := (inst.parameters.get "location").getD (.str "未知地点")
  let coordinates := (inst.parameters.get "coordinates").getD
    (.obj [("lat", .num 0), ("lng", .num 0)])
  let data :=
    if strContains data_type "fire" then
      .obj [("event_type", .str "fire"), ("location", location),
            ("coordinates", coordinates), ("severity", .str "high"),
            ("timestamp", .str (toString clock))]
    else if strContains data_type "flood" then
      .obj [("event_type", .str "flood"), ("location", location),
            ("coordinates", coordinates), ("water_level", .dec 1520),
            ("timestamp", .str (toString clock))]
    else if strContains data_type "climate" then
      .obj [("event_type", .str "climate"), ("location", location),
            ("coordinates", coordinates), ("climate_type", .str "tropical_cyclone"),
            ("timestamp", .str (toString clock))]
    else
      JsonVal.obj [("message", .str s!"获取{data_type}类型数据"),
                   ("timestamp", .str (toString clock))]
  .obj [("success", .bool true), ("data", data), ("count", .num 1),
        ("source", .str "database")]

/-- `_execute_mcp_call_step`: mock result per service (the source does not
contact the MCP client here). -/
def execute_mcp_call_step (step : WorkflowStep) : JsonVal :=
  let service := step.parameters.get "service"
  let tool := step.parameters.get "tool"
  let arguments := (step.parameters.get "arguments").getD (.obj [])
  let result :=
    if optIsStr service "nfdrs4" then
      .obj [("risk_level", .str "high"), ("risk_score", .dec 85),
            ("confidence", .dec 92),
            ("recommendations", .arr [.str "立即启动应急预案", .str "加强监测和预警"])]
    else if optIsStr service "lisflood" then
      .obj [("flood_level", .str "severe"), ("affected_area", .str "1500 km²"),
            ("population_at_risk", .num 25000), ("evacuation_required", .bool true)]
    else if optIsStr service "climada" then
      .obj [("climate_risk", .str "moderate"), ("vulnerability_score", .dec 65),
            ("adaptation_needed", .bool true), ("economic_impact", .str "significant")]
    else
      JsonVal.obj [("message",
        .str s!"模拟{optRender service}服务{optRender tool}工具执行结果")]
  .obj [("success", .bool true), ("service", optVal service), ("tool", optVal tool),
        ("arguments", arguments), ("result", result), ("execution_time", .dec 200)]

/-- `_execute_data_save_step`; `clock` stands for `int(time.time())`. -/
def execute_data_save_step (step : WorkflowStep) (clock : Nat) : JsonVal :=
  let table := getStrD step.parameters "table" "unknown_table"
  .obj [("success", .bool true), ("table", .str table),
        ("record_id", .str s!"record_{clock}"),
        ("saved_at", .str (toString clock)),
        ("message", .str s!"数据已保存到表 {table}")]

/-- `_execute_geoserver_publish_step`. -/
def execute_geoserver_publish_step (step : WorkflowStep) (clock : Nat) : JsonVal :=
  let layer_name := getStrD step.parameters "layer_name" "unknown_layer"
  .obj [("success", .bool true), ("layer_name", .str layer_name),
        ("layer_id", .str s!"layer_{layer_name}_{clock}"),
        ("service_url",
         .str s!"http://localhost:8080/geoserver/rest/services/{layer_name}/wms"),
        ("published_at", .str (toString clock)),
        ("message", .str s!"图层 {layer_name} 已发布到GeoServer")]

/-- `_execute_single_mcp_call`: one mock sub-call of the fan-out step. -/
def execute_single_mcp_call (service tool : String) : JsonVal :=
  .obj [("service", .str service), ("tool", .str tool),
        ("result", .str s!"模拟{service}服务{tool}工具执行结果")]

/-- The fan-out step's sub-calls: `tools[i] if i < len(tools) else
"default_tool"` for each enumerated service. -/
def parallelResults (services tools : List JsonVal) (i : Nat) : List JsonVal :=
  match services with
  | [] => []
  | sv :: rest =>
    let tool := optRender (tools.get? i)
    execute_single_mcp_call sv.render (if i < tools.length then tool else "default_tool")
      :: parallelResults rest tools (i + 1)

/-- `_execute_parallel_mcp_calls_step`. -/
def execute_parallel_mcp_calls_step (step : WorkflowStep) : JsonVal :=
  let services := asList (step.parameters.get "services")
  let tools := asList (step.parameters.get "tools")
  .obj [("success", .bool true), ("parallel_calls", .num services.length),
        ("results", .arr (parallelResults services tools 0)),
        ("execution_time", .dec 300)]

/-- `_execute_data_integration_step`. -/
def execute_data_integration_step (step : WorkflowStep) : JsonVal :=
  let integration_method := getStrD step.parameters "integration_method" "simple_merge"
  .obj [("success", .bool true), ("integration_method", .str integration_method),
        ("integrated_data",
         .obj [("comprehensive_risk", .str "high"), ("confidence", .dec 88),
               ("recommendations", .arr [.str "启动综合应急预案", .str "多部门协同响应"])]),
        ("message", .str s!"使用{integration_method}方法整合数据成功")]

/-- The dispatch chain of `_execute_step`: the six supported step types
run their handler; any other step type raises `ValueError`. -/
def runHandler (step : WorkflowStep) (inst : WorkflowInstance) (clock : Nat) :
    Except String JsonVal :=
  if step.step_type == "data_fetch" then
    .ok (execute_data_fetch_step step inst clock)
  else if step.step_type == "mcp_call" then
    .ok (execute_mcp_call_step step)
  else if step.step_type == "data_save" then
    .ok (execute_data_save_step step clock)
  else if step.step_type == "geoserver_publish" then
    .ok (execute_geoserver_publish_step step clock)
  else if step.step_type == "parallel_mcp_calls" then
    .ok (execute_parallel_mcp_calls_step step)
  else if step.step_type == "data_integration" then
    .ok (execute_data_integration_step step)
  else
    .error s!"不支持的步骤类型: {step.step_type}"

/-- The chronological list of status assignments performed on steps. -/
abbrev Trace := List (String × StepStatus)

/-- State of one `execute_workflow` run: the instance being mutated, the
local `completed_steps` set (as a duplicate-free list), an abstract clock
standing for `datetime.now()` readings, and the trace of step status
assignments observed so far. -/
structure ExecState where
  inst : WorkflowInstance
  completed : List String
  clock : Nat
  trace : Trace

/-- Replace step `i` of the instance. -/
def setStep (st : ExecState) (i : Nat) (s : WorkflowStep) : ExecState :=
  { st with inst := { st.inst with steps := st.inst.steps.set i s } }

/-- `_execute_step` on the step at index `i`: set it Running, run its
handler, record result/error and terminal status plus timestamps
(`finally:` sets the end time on both paths).  `.error` is the re-raised
exception of the failure path. -/
def execute_step (i : Nat) (st : ExecState) : ExecState × Except String Unit :=
  match st.inst.steps.get? i with
  | none => (st, .ok ())
  | some step =>
    let t0 := st.clock
    let step₁ := { step with status := StepStatus.running, start_time := some t0 }
    let st₁ : ExecState :=
      { setStep st i step₁ with
        clock := t0 + 1,
        trace := st.trace ++ [(step.id, StepStatus.running)] }
    match runHandler step₁ st₁.inst (t0 + 1) with
    | .ok result =>
      let step₂ := { step₁ with
        result := some result, status := StepStatus.completed,
        end_time := some (t0 + 1), execution_time := some 1 }
      ({ setStep st₁ i step₂ with
         clock := t0 + 2,
         trace := st₁.trace ++ [(step.id, StepStatus.completed)] }, .ok ())
    | .error e =>
      let step₂ := { step₁ with
        error := some e, status := StepStatus.failed,
        end_time := some (t0 + 1), execution_time := some 1 }
      ({ setStep st₁ i step₂ with
         clock := t0 + 2,
         trace := st₁.trace ++ [(step.id, StepStatus.failed)] }, .error e)

/-- Result of one scan pass (`for step in instance.steps:`). -/
inductive PassResult where
  | done (st : ExecState)
  | earlyReturn (st : ExecState)
  | raised (st : ExecState) (e : String)

/-- One scan pass over the steps at the given indices: skip steps already
in `completed_steps`, execute each step whose dependencies are all
completed, add it to `completed_steps`, and return early (marking the
instance Failed) if its status is Failed; an exception from
`_execute_step` aborts the pass (`raised`). -/
def scan_steps (st : ExecState) : List Nat → PassResult
  | [] => .done st
  | i :: rest =>
    match st.inst.steps.get? i with
    | none => scan_steps st rest
    | some step =>
      if st.completed.contains step.id then scan_steps st rest
      else if step.dependencies.all (fun d => st.completed.contains d) then
        match execute_step i st with
        | (st', .error e) => .raised st' e
        | (st', .ok _) =>
          let st'' : ExecState :=
            { st' with
              completed := st'.completed ++ [step.id],
              inst := { st'.inst with current_step := some step.id } }
          match st''.inst.steps.get? i with
          | some s2 =>
            if s2.status = StepStatus.failed then
              .earlyReturn { st'' with
                inst := { st''.inst with
                            status := WorkflowStatus.failed,
                            end_time := some st''.clock } }
            else scan_steps st'' rest
          | none => scan_steps st'' rest
      else scan_steps st rest

/-- Mark the instance Completed with its total execution time (the code
after the `while` loop). -/
def finishCompleted (st : ExecState) : ExecState :=
  { st with inst := { st.inst with
      status := WorkflowStatus.completed,
      end_time := some st.clock,
      total_execution_time :=
        match st.inst.start_time with
        | some t => some (st.clock - t)
        | none => none } }

/-- Mark the instance Failed (used by the deadlock guard and by the outer
`except` clause before it re-raises). -/
def markFailed (st : ExecState) : ExecState :=
  { st with inst := { st.inst with
      status := WorkflowStatus.failed, end_time := some st.clock } }

/-- The `while len(completed_steps) < len(instance.steps):` loop of
`execute_workflow`, with `fuel` bounding the number of passes; `none`
means the loop did not finish within `fuel` passes.  The deadlock guard
of the source tests `len(completed_steps) == 0` — the TOTAL number of
completed steps, not the progress of the current pass. -/
def exec_loop (fuel : Nat) (st : ExecState) : Option (ExecState × Except String Unit) :=
  if st.completed.length < st.inst.steps.length then
    match fuel with
    | 0 => none
    | fuel + 1 =>
      match scan_steps st (List.range st.inst.steps.length) with
      | .raised st' e => some (markFailed st', .error e)
      | .earlyReturn st' => some (st', .ok ())
      | .done st' =>
        if st'.completed.length == 0 then
          some (markFailed st', .ok ())
        else
          exec_loop fuel st'
  else
    some (finishCompleted st, .ok ())

/-- The engine's instance store `self.workflow_instances`. -/
abbrev Instances := List (String × WorkflowInstance)

/-- Replace the stored instance under `instance_id`. -/
def setInstance (m : Instances) (instance_id : String) (inst : WorkflowInstance) :
    Instances :=
  m.map (fun p => bif p.1 == instance_id then (p.1, inst) else p)

/-- `execute_workflow`: look the instance up (raising `ValueError` when it
is unknown), set it Running, and drive the scan loop.  Returns the updated
store, `.ok ()` for a normal return or `.error e` for an exception
propagating out, and the trace of step status assignments; `none` means
the scan loop never terminated within `fuel` passes. -/
def execute_workflow (instances : Instances) (instance_id : String)
    (clock0 : Nat) (fuel : Nat) :
    Option (Instances × Except String Unit × Trace) :=
  match instances.lookup instance_id with
  | none =>
    some (instances, .error s!"ValueError: 工作流实例 {instance_id} 不存在", [])
  | some inst =>
    let st0 : ExecState :=
      { inst := { inst with
                    status := WorkflowStatus.running,
                    start_time := some clock0 },
        completed := [], clock := clock0 + 1, trace := [] }
    match exec_loop fuel st0 with
    | none => none
    | some (stF, exc) =>
      some (setInstance instances instance_id stF.inst, exc, stF.trace)

/-- `cancel_workflow`: mark a non-terminal instance Cancelled.  Step
statuses are never touched. -/
def cancel_workflow (instances : Instances) (instance_id : String) (clock : Nat) :
    Instances × Bool :=
  match instances.lookup instance_id with
  | none => (instances, false)
  | some inst =>
    if inst.status = WorkflowStatus.completed ∨ inst.status = WorkflowStatus.failed then
      (instances, false)
    else
      (setInstance instances instance_id
        { inst with status := WorkflowStatus.cancelled, end_time := some clock },
        true)

end WFE

/-! ## Shared fixtures and registry lemmas -/

namespace MCPC

/-- A fully concrete default call environment for witnesses. -/
def dummyEnv : CallEnv :=
  { execOutcome := .exn "boom", pollOutcome := fun _ => .exn "boom",
    pollElapsed := fun _ => 0, elapsed := 0 }

/-- A concrete endpoint for witnesses and counterexamples. -/
def epA (status : ServiceStatus) (error_count : Nat) : ServiceEndpoint :=
  { name := "a", url := "http://localhost:8007",
    health_check_url := "http://localhost:8007/health",
    status := status, error_count := error_count }

theorem lookup_setService_self (svcs : Services) (name : String)
    (e' : ServiceEndpoint) (h : (svcs.lookup name).isSome) :
    (setService svcs name e').lookup name = some e' := by
  induction svcs with
  | nil => simp [List.lookup] at h
  | cons p rest ih =>
    obtain ⟨k, v⟩ := p
    by_cases hk : k = name
    · subst hk
      simp only [setService, List.map, beq_self_eq_true, cond_true, List.lookup]
    · have h1 : (k == name) = false := by simpa using hk
      have h2 : (name == k) = false := by simpa using Ne.symm hk
      simp only [setService, List.map, h1, cond_false, List.lookup, h2] at h ⊢
      exact ih h

theorem lookup_setService_ne (svcs : Services) (name k : String)
    (e' : ServiceEndpoint) (h : k ≠ name) :
    (setService svcs name e').lookup k = svcs.lookup k := by
  induction svcs with
  | nil => simp [setService]
  | cons p rest ih =>
    obtain ⟨k', v⟩ := p
    by_cases hk : k' = name
    · subst hk
      have h1 : (k == k') = false := by simpa using h
      simp only [setService, List.map, beq_self_eq_true, cond_true, List.lookup, h1]
      exact ih
    · have h1 : (k' == name) = false := by simpa using hk
      simp only [setService, List.map, h1, cond_false, List.lookup]
      cases hkk : k == k'
      · exact ih
      · rfl

end MCPC

/-! ## Claim C3 — health probes -/

/-- Claim C3 counterexample input: service `a` registered with 2
consecutive errors (threshold 3). -/
def c3svcs : MCPC.Services := [("a", MCPC.epA .unknown 2)]

/-- Claim C3 is false on the code: a successful probe of `a` (HTTP 200)
leaves the consecutive error count at 2 instead of resetting it to 0, and
a failed probe (HTTP 500) with the count (2) still below the threshold (3)
sets the status to Unhealthy instead of Degraded — the count is not
incremented either. -/
theorem C3_counterexample :
    (((MCPC.health_check c3svcs "a"
        { outcome := .resp 200 (.obj []) "", now := 9 }).1.lookup "a").map
      (fun e => e.error_count) = some 2 ∧ (2 : Nat) ≠ 0) ∧
    (((MCPC.health_check c3svcs "a"
        { outcome := .resp 500 (.obj []) "", now := 9 }).1.lookup "a").map
      (fun e => (e.status, e.error_count)) = some (.unhealthy, 2) ∧
      (2 : Nat) < 3) := by
  constructor
  · exact ⟨rfl, by decide⟩
  · exact ⟨rfl, by decide⟩

/-- Claim C3 (amended): for every registered service, a successful probe
(HTTP 200) sets its status to Healthy and a failed probe (any other
response, timeout or connection error) sets it straight to Unhealthy; the
consecutive error count is never read or written by the probe, no
threshold is involved, and Degraded is never assigned.  The probe never
throws: `health_check` is total and all exceptional outcomes land in the
failure branch of this statement. -/
theorem C3_amended (svcs : MCPC.Services) (name : String) (env : MCPC.ProbeEnv)
    (e : MCPC.ServiceEndpoint) (hl : svcs.lookup name = some e) :
    (∀ body text, env.outcome = .resp 200 body text →
      MCPC.health_check svcs name env =
        (MCPC.setService svcs name
          { e with status := .healthy, last_check := env.now }, true)) ∧
    (∀ s body text, env.outcome = .resp s body text → s ≠ 200 →
      MCPC.health_check svcs name env =
        (MCPC.setService svcs name
          { e with status := .unhealthy, last_check := env.now }, false)) ∧
    ((env.outcome = .timeout ∨ ∃ m, env.outcome = .exn m) →
      MCPC.health_check svcs name env =
        (MCPC.setService svcs name
          { e with status := .unhealthy, last_check := env.now }, false)) := by
  refine ⟨?_, ?_, ?_⟩
  · intro body text h
    simp [MCPC.health_check, hl, h]
  · intro s body text h hs
    simp [MCPC.health_check, hl, h, hs]
  · rintro (h | ⟨m, h⟩) <;> simp [MCPC.health_check, hl, h]

/-- Witness: the amended C3 instantiated on the concrete registry, all
hypotheses discharged. -/
theorem C3_amended_witness :
    MCPC.health_check c3svcs "a" { outcome := .resp 200 (.obj []) "", now := 9 } =
      (MCPC.setService c3svcs "a"
        { MCPC.epA .unknown 2 with status := .healthy, last_check := 9 }, true) :=
  (C3_amended c3svcs "a" { outcome := .resp 200 (.obj []) "", now := 9 }
    (MCPC.epA .unknown 2) rfl).1 (.obj []) "" rfl

/-! ## Claim C5 — registry lookup and circuit-open refusal -/

/-- Claim C5 (confirmed): `call_service` first consults the registry — an
unknown service name yields a failed result reporting the service was not
found, and an Unhealthy service yields an immediate failed result (circuit
open); in both cases the registry is untouched and zero network requests
are issued. -/
theorem C5_lookup_and_circuit (services : MCPC.Services)
    (service_name tool_name : String) (parameters : JsonVal)
    (timeout : Option Nat) (env : MCPC.CallEnv) (fuel : Nat) :
    (services.lookup service_name = none →
      MCPC.call_service services service_name tool_name parameters timeout env fuel =
        some (services,
          { success := false,
            error := some (.str s!"Service \x27{service_name}\x27 not found") }, 0)) ∧
    (∀ e, services.lookup service_name = some e → e.status = .unhealthy →
      MCPC.call_service services service_name tool_name parameters timeout env fuel =
        some (services,
          { success := false,
            error := some (.str s!"Service \x27{service_name}\x27 is unhealthy") }, 0)) := by
  constructor
  · intro h
    simp [MCPC.call_service, h]
  · intro e h hs
    simp [MCPC.call_service, h, hs]

/-- Witness: C5 instantiated on the empty registry and on a registry whose
only service is Unhealthy. -/
theorem C5_lookup_and_circuit_witness :
    (MCPC.call_service [] "postgis" "t" (.obj []) none MCPC.dummyEnv 1 =
      some ([],
        { success := false,
          error := some (.str "Service \x27postgis\x27 not found") }, 0)) ∧
    (MCPC.call_service [("a", MCPC.epA .unhealthy 3)] "a" "t" (.obj [])
        none MCPC.dummyEnv 1 =
      some ([("a", MCPC.epA .unhealthy 3)],
        { success := false,
          error := some (.str "Service \x27a\x27 is unhealthy") }, 0)) :=
  ⟨(C5_lookup_and_circuit [] "postgis" "t" (.obj []) none MCPC.dummyEnv 1).1 rfl,
   (C5_lookup_and_circuit [("a", MCPC.epA .unhealthy 3)] "a" "t" (.obj [])
      none MCPC.dummyEnv 1).2 (MCPC.epA .unhealthy 3) rfl rfl⟩

/-! ## Claim C10 — any received response resets health state -/

/-- Claim C10 (confirmed): whenever `call_service` receives an HTTP
response from the execute endpoint — whatever its status code, including a
non-200 application error — and returns, the service's entry has been set
to status Healthy with consecutive error count 0 and the response latency
recorded, even though the returned result may be a failure. -/
theorem C10_response_resets_health (services : MCPC.Services)
    (service_name tool_name : String) (parameters : JsonVal)
    (timeout : Option Nat) (env : MCPC.CallEnv) (fuel : Nat)
    (e : MCPC.ServiceEndpoint) (s : Nat) (body : JsonVal) (text : String)
    (svcs' : MCPC.Services) (res : MCPC.MCPCallResult) (n : Nat)
    (hl : services.lookup service_name = some e)
    (hs : e.status ≠ .unhealthy)
    (ho : env.execOutcome = .resp s body text)
    (hc : MCPC.call_service services service_name tool_name parameters timeout env fuel =
      some (svcs', res, n)) :
    svcs'.lookup service_name =
      some { e with response_time := env.elapsed, error_count := 0,
                    status := .healthy } := by
  simp only [MCPC.call_service, hl] at hc
  rw [if_neg hs] at hc
  simp only [MCPC.callBody, ho] at hc
  cases hi : MCPC.respInner env s body text (timeout.getD e.timeout) fuel with
  | none => rw [hi] at hc; simp at hc
  | some rp =>
    obtain ⟨r, polls⟩ := rp
    rw [hi] at hc
    simp only [Option.some.injEq, Prod.mk.injEq] at hc
    obtain ⟨h1, _⟩ := hc
    subst h1
    exact MCPC.lookup_setService_self services service_name _ (by simp [hl])

/-! ## Claim C7 — poll failures are not retried -/

/-- Registry for the C7 counterexample: one Healthy service `a`. -/
def c7svcs : MCPC.Services := [("a", MCPC.epA .healthy 0)]

/-- Environment for the C7 counterexample: the execute endpoint answers
`running` with execution id `x`; the first status poll fails with
HTTP 500 while the second poll would report completion. -/
def c7env : MCPC.CallEnv :=
  { execOutcome := .resp 200
      (.obj [("status", .str "running"), ("execution_id", .str "x")]) "",
    pollOutcome := fun k =>
      if k == 0 then .resp 500 (.obj []) "boom"
      else .resp 200
        (.obj [("status", .str "completed"), ("result", .obj [("x", .num 1)])]) "",
    pollElapsed := fun k => 2 * k,
    elapsed := 5 }

/-- Claim C7 is false on the code: in this run the very first status poll
fails (HTTP 500) while the next poll would have reported completion, yet
the whole call is immediately marked failed after exactly 2 HTTP requests
(the execute POST and the single poll) — there is no retry budget for
poll failures. -/
theorem C7_counterexample :
    (MCPC.call_service c7svcs "a" "t" (.obj []) none c7env 10).map
      (fun r => (r.2.1.success, r.2.1.error, r.2.2)) =
      some (false, some (.str "Failed to get status: HTTP 500"), 2) ∧
    c7env.pollOutcome 1 = .resp 200
      (.obj [("status", .str "completed"), ("result", .obj [("x", .num 1)])]) "" := by
  exact ⟨rfl, rfl⟩

/-- Claim C7 (amended): any individual poll failure immediately fails the
whole call — a non-200 poll response yields a failed result reporting
`Failed to get status`, and an exception during a poll yields a failed
result reporting `Status check failed`, in both cases without ever looking
at any later poll.  There is no retry budget for poll failures. -/
theorem C7_amended (env : MCPC.CallEnv) (execution_id : JsonVal)
    (timeout k fuel : Nat) (hel : env.pollElapsed k ≤ timeout) :
    (∀ s body text, env.pollOutcome k = .resp s body text → s ≠ 200 →
      MCPC.wait_for_completion env execution_id timeout k (fuel + 1) =
        some ({ success := false,
                error := some (.str s!"Failed to get status: HTTP {s}") }, k + 1)) ∧
    (∀ m, env.pollOutcome k = .exn m →
      MCPC.wait_for_completion env execution_id timeout k (fuel + 1) =
        some ({ success := false,
                error := some (.str s!"Status check failed: {m}") }, k + 1)) := by
  have hnot : ¬ env.pollElapsed k > timeout := not_lt.mpr hel
  constructor
  · intro s body text hp hs
    have hs' : (s == 200) = false := by simpa using hs
    simp only [MCPC.wait_for_completion, if_neg hnot, hp, hs', Bool.false_eq_true,
      if_false]
  · intro m hp
    simp only [MCPC.wait_for_completion, if_neg hnot, hp]

/-- Witness: the amended C7 applied to the concrete counterexample
environment. -/
theorem C7_amended_witness :
    MCPC.wait_for_completion c7env (.str "x") 30 0 10 =
      some ({ success := false,
              error := some (.str "Failed to get status: HTTP 500") }, 1) :=
  (C7_amended c7env (.str "x") 30 0 9 (by decide)).1 500 (.obj []) "boom" rfl
    (by decide)

/-! ## Claim C2 — immediate-completion path vs polling path -/

/-- The remote outcome used in C2: a completed execution whose result
payload is `{x: 1}` and whose execution id is `x`. -/
def c2result : JsonVal := .obj [("x", .num 1)]

/-- C2 environment for the immediate-completion path: the execute endpoint
itself reports completion, carrying the result payload. -/
def c2envImmediate : MCPC.CallEnv :=
  { execOutcome := .resp 200
      (.obj [("status", .str "completed"), ("result", c2result),
             ("execution_id", .str "x")]) "",
    pollOutcome := fun _ => .exn "unused",
    pollElapsed := fun k => 2 * k,
    elapsed := 5 }

/-- C2 environment for the polling path: the execute endpoint reports
`running` with execution id `x`, and the first status poll reports the
same completed outcome with the same result payload. -/
def c2envPolling : MCPC.CallEnv :=
  { execOutcome := .resp 200
      (.obj [("status", .str "running"), ("execution_id", .str "x")]) "",
    pollOutcome := fun _ => .resp 200
      (.obj [("status", .str "completed"), ("result", c2result)]) "",
    pollElapsed := fun k => 2 * k,
    elapsed := 5 }

/-- Claim C2 is false on the code: for the same logical remote outcome
(a completed execution with result `{x: 1}` and execution id `x`), both
paths return success, but the immediate-completion path stores the entire
response body (the envelope with `status`, `result` and `execution_id`
keys) in `data`, while the polling path stores only the body's `result`
field — the two payloads differ. -/
theorem C2_counterexample :
    ((MCPC.call_service c7svcs "a" "t" (.obj []) none c2envImmediate 10).map
      (fun r => (r.2.1.success, r.2.1.data)) =
      some (true, some (.obj [("status", .str "completed"), ("result", c2result),
                              ("execution_id", .str "x")]))) ∧
    ((MCPC.call_service c7svcs "a" "t" (.obj []) none c2envPolling 10).map
      (fun r => (r.2.1.success, r.2.1.data)) =
      some (true, some c2result)) ∧
    (some (JsonVal.obj [("status", .str "completed"), ("result", c2result),
                        ("execution_id", .str "x")]) : Option JsonVal) ≠ some c2result := by
  refine ⟨rfl, rfl, fun h => ?_⟩
  have h2 := congrArg (fun o : Option JsonVal =>
    o.bind (fun v => v.get "status")) h
  simp [c2result, JsonVal.get, List.lookup] at h2

/-- Claim C2 (amended): for logically equivalent completed remote
outcomes, a `CallResult` from the immediate-completion path and one from
the polling path carry the same success flag (true) and the same
bookkeeping fields (service name, tool name, measured duration), but
their payloads differ systematically: the immediate path stores the whole
response body in `data`, while the polling path stores only the poll
body's `result` field. -/
theorem C2_amended (services : MCPC.Services) (service_name tool_name : String)
    (parameters : JsonVal) (timeout : Option Nat) (e : MCPC.ServiceEndpoint)
    (hl : services.lookup service_name = some e) (hs : e.status ≠ .unhealthy)
    (envI : MCPC.CallEnv) (bodyI : JsonVal) (textI : String)
    (hIo : envI.execOutcome = .resp 200 bodyI textI)
    (hIr : optIsStr (bodyI.get "status") "running" = false)
    (envP : MCPC.CallEnv) (bodyR bodyP : JsonVal) (textR textP : String)
    (eid : JsonVal)
    (hPo : envP.execOutcome = .resp 200 bodyR textR)
    (hPr : optIsStr (bodyR.get "status") "running" = true)
    (hPe : bodyR.get "execution_id" = some eid) (hPt : eid.truthy = true)
    (hPel : envP.pollElapsed 0 ≤ timeout.getD e.timeout)
    (hP0 : envP.pollOutcome 0 = .resp 200 bodyP textP)
    (hPc : optIsStr (bodyP.get "status") "completed" = true)
    (fuel : Nat) :
    (MCPC.call_service services service_name tool_name parameters timeout envI fuel =
      some (MCPC.setService services service_name
              { e with response_time := envI.elapsed, error_count := 0,
                       status := .healthy },
        { success := true, data := some bodyI,
          execution_id := bodyI.get "execution_id",
          duration := envI.elapsed, service_name := some service_name,
          tool_name := some tool_name }, 1)) ∧
    (MCPC.call_service services service_name tool_name parameters timeout envP (fuel + 1) =
      some (MCPC.setService services service_name
              { e with response_time := envP.elapsed, error_count := 0,
                       status := .healthy },
        { success := true, data := bodyP.get "result",
          execution_id := some eid,
          duration := envP.elapsed, service_name := some service_name,
          tool_name := some tool_name }, 2)) := by
  constructor
  · simp only [MCPC.call_service, hl]
    rw [if_neg hs]
    simp only [MCPC.callBody, hIo, MCPC.respInner, beq_self_eq_true, if_true, hIr,
      Bool.false_eq_true, if_false]
  · simp only [MCPC.call_service, hl]
    rw [if_neg hs]
    have hwait : MCPC.wait_for_completion envP eid (timeout.getD e.timeout) 0
        (fuel + 1) =
        some ({ success := true, data := bodyP.get "result",
                execution_id := some eid }, 1) := by
      have hnot : ¬ envP.pollElapsed 0 > timeout.getD e.timeout := not_lt.mpr hPel
      simp only [MCPC.wait_for_completion, if_neg hnot, hP0, beq_self_eq_true,
        if_true, hPc]
    simp only [MCPC.callBody, hPo, MCPC.respInner, beq_self_eq_true, if_true, hPr,
      hPe, optTruthy, hPt, Option.getD_some, hwait]

/-- Witness: the amended C2 applied to the two concrete environments of
the counterexample. -/
theorem C2_amended_witness :
    MCPC.call_service c7svcs "a" "t" (.obj []) none c2envPolling 10 =
      some (MCPC.setService c7svcs "a"
              { MCPC.epA .healthy 0 with
                  response_time := 5, error_count := 0, status := .healthy },
        { success := true, data := some c2result,
          execution_id := some (.str "x"),
          duration := 5, service_name := some "a",
          tool_name := some "t" }, 2) :=
  (C2_amended c7svcs "a" "t" (.obj []) none (MCPC.epA .healthy 0) rfl
    (by decide)
    c2envImmediate (.obj [("status", .str "completed"), ("result", c2result),
                          ("execution_id", .str "x")]) "" rfl rfl
    c2envPolling (.obj [("status", .str "running"), ("execution_id", .str "x")])
    (.obj [("status", .str "completed"), ("result", c2result)]) "" ""
    (.str "x") rfl rfl rfl rfl (by decide) rfl rfl 9).2

/-! ## Claim C4 — circuit breaker lifecycle -/

namespace MCPC

/-- An Unhealthy status of service `t` survives any single `call_service`
invocation (to `t` it is refused and changes nothing; to another service
only that service's entry is rewritten). -/
theorem call_preserves_unhealthy (svcs : Services) (sn tn : String)
    (p : JsonVal) (tmo : Option Nat) (env : CallEnv) (fuel : Nat) (t : String)
    (hP : ∃ e, svcs.lookup t = some e ∧ e.status = .unhealthy)
    (svcs' : Services) (r : MCPCallResult) (n : Nat)
    (h : call_service svcs sn tn p tmo env fuel = some (svcs', r, n)) :
    ∃ e, svcs'.lookup t = some e ∧ e.status = .unhealthy := by
  obtain ⟨e, hl, hu⟩ := hP
  by_cases hts : t = sn
  · subst hts
    simp only [call_service, hl, if_pos hu, Option.some.injEq, Prod.mk.injEq] at h
    obtain ⟨h1, -⟩ := h
    exact ⟨e, h1 ▸ hl, hu⟩
  · cases hl2 : svcs.lookup sn with
    | none =>
      simp only [call_service, hl2, Option.some.injEq, Prod.mk.injEq] at h
      obtain ⟨h1, -⟩ := h
      exact ⟨e, h1 ▸ hl, hu⟩
    | some e2 =>
      by_cases hs2 : e2.status = .unhealthy
      · simp only [call_service, hl2, if_pos hs2, Option.some.injEq,
          Prod.mk.injEq] at h
        obtain ⟨h1, -⟩ := h
        exact ⟨e, h1 ▸ hl, hu⟩
      · simp only [call_service, hl2] at h
        rw [if_neg hs2] at h
        cases hb : callBody e2 sn tn env (tmo.getD e2.timeout) fuel with
        | ok o =>
          cases o with
          | none => rw [hb] at h; simp at h
          | some v =>
            obtain ⟨se, rr, pp⟩ := v
            rw [hb] at h
            simp only [Option.some.injEq, Prod.mk.injEq] at h
            obtain ⟨h1, -⟩ := h
            refine ⟨e, ?_, hu⟩
            rw [← h1, lookup_setService_ne svcs sn t _ hts]
            exact hl
        | error pe =>
          cases pe with
          | timeoutError =>
            rw [hb] at h
            simp only [Option.some.injEq, Prod.mk.injEq] at h
            obtain ⟨h1, -⟩ := h
            refine ⟨e, ?_, hu⟩
            rw [← h1, lookup_setService_ne svcs sn t _ hts]
            exact hl
          | exn m =>
            rw [hb] at h
            simp only [Option.some.injEq, Prod.mk.injEq] at h
            obtain ⟨h1, -⟩ := h
            refine ⟨e, ?_, hu⟩
            rw [← h1, lookup_setService_ne svcs sn t _ hts]
            exact hl

/-- An Unhealthy status of service `t` survives any probe that is not a
successful probe of `t`. -/
theorem probe_preserves_unhealthy (svcs : Services) (n : String) (env : ProbeEnv)
    (t : String) (hp : succeedsProbe t (ClientOp.probe n env) = false)
    (hP : ∃ e, svcs.lookup t = some e ∧ e.status = .unhealthy) :
    ∃ e, (health_check svcs n env).1.lookup t = some e ∧ e.status = .unhealthy := by
  obtain ⟨e, hl, hu⟩ := hP
  cases hn : svcs.lookup n with
  | none => simpa [health_check, hn] using ⟨e, hl, hu⟩
  | some e2 =>
    have hsome : (svcs.lookup n).isSome := by simp [hn]
    by_cases hnt : n = t
    · subst hnt
      cases ho : env.outcome with
      | resp s body text =>
        have hs : (s == 200) = false := by
          simpa [succeedsProbe, ho] using hp
        simp only [health_check, hn, ho, hs, Bool.false_eq_true, if_false]
        exact ⟨_, lookup_setService_self svcs n _ hsome, rfl⟩
      | timeout =>
        simp only [health_check, hn, ho]
        exact ⟨_, lookup_setService_self svcs n _ hsome, rfl⟩
      | exn m =>
        simp only [health_check, hn, ho]
        exact ⟨_, lookup_setService_self svcs n _ hsome, rfl⟩
    · have hne : t ≠ n := fun hh => hnt hh.symm
      cases ho : env.outcome with
      | resp s body text =>
        simp only [health_check, hn, ho]
        exact ⟨e, by rw [lookup_setService_ne svcs n t _ hne]; exact hl, hu⟩
      | timeout =>
        simp only [health_check, hn, ho]
        exact ⟨e, by rw [lookup_setService_ne svcs n t _ hne]; exact hl, hu⟩
      | exn m =>
        simp only [health_check, hn, ho]
        exact ⟨e, by rw [lookup_setService_ne svcs n t _ hne]; exact hl, hu⟩

/-- An Unhealthy status of `t` survives any sequence of client operations
containing no successful probe of `t`. -/
theorem runOps_preserves_unhealthy (t : String) (ops : List ClientOp) :
    ∀ svcs svcs', (∀ op ∈ ops, succeedsProbe t op = false) →
    (∃ e, svcs.lookup t = some e ∧ e.status = .unhealthy) →
    runOps svcs ops = some svcs' →
    ∃ e, svcs'.lookup t = some e ∧ e.status = .unhealthy := by
  induction ops with
  | nil =>
    intro svcs svcs' _ hP h
    simp only [runOps, Option.some.injEq] at h
    exact h ▸ hP
  | cons op rest ih =>
    intro svcs svcs' hall hP h
    simp only [runOps] at h
    cases hop : runOp svcs op with
    | none => rw [hop] at h; simp at h
    | some svcs1 =>
      rw [hop] at h
      refine ih svcs1 svcs' (fun o ho => hall o (List.mem_cons_of_mem _ ho)) ?_ h
      cases op with
      | call sn tn p tmo env fuel =>
        simp only [runOp] at hop
        cases hc : call_service svcs sn tn p tmo env fuel with
        | none => rw [hc] at hop; simp at hop
        | some v =>
          obtain ⟨s1, r1, n1⟩ := v
          rw [hc] at hop
          simp only [Option.map_some', Option.some.injEq] at hop
          exact hop ▸ call_preserves_unhealthy svcs sn tn p tmo env fuel t hP s1 r1 n1 hc
      | probe sn env =>
        simp only [runOp, Option.some.injEq] at hop
        have := probe_preserves_unhealthy svcs sn env t
          (hall _ (List.mem_cons_self _ _)) hP
        exact hop ▸ this

end MCPC

/-- Registry for the C4 counterexample: service `a` Healthy with 2
consecutive errors and threshold 3. -/
def c4svcs : MCPC.Services := [("a", MCPC.epA .healthy 2)]

/-- Environment whose execute request times out (`asyncio.TimeoutError`). -/
def c4envTimeout : MCPC.CallEnv :=
  { execOutcome := .timeout, pollOutcome := fun _ => .exn "unused",
    pollElapsed := fun _ => 0, elapsed := 1 }

/-- Environment whose execute request gets an HTTP 200 response. -/
def c4env200 : MCPC.CallEnv :=
  { execOutcome := .resp 200 (.obj []) "", pollOutcome := fun _ => .exn "unused",
    pollElapsed := fun _ => 0, elapsed := 1 }

/-- Claim C4 is false on the code: a timed-out call to `a` brings its
consecutive error count to 3 — exactly the threshold — but the timeout
handler never flips the status, so `a` stays Healthy; the very next call
to `a` is attempted over the network (1 request) and succeeds, instead of
being refused. -/
theorem C4_counterexample :
    ((MCPC.call_service c4svcs "a" "t" (.obj []) none c4envTimeout 1).map
      (fun r => (r.1, r.2.2)) = some ([("a", MCPC.epA .healthy 3)], 1)) ∧
    ((MCPC.epA .healthy 3).error_count ≥ (MCPC.epA .healthy 3).max_errors ∧
      (MCPC.epA .healthy 3).status ≠ .unhealthy) ∧
    ((MCPC.call_service [("a", MCPC.epA .healthy 3)] "a" "t" (.obj [])
        none c4env200 1).map
      (fun r => (r.2.1.success, r.2.2)) = some (true, 1)) :=
  ⟨rfl, ⟨by decide, by decide⟩, rfl⟩

/-- Claim C4 (amended): the status flips to Unhealthy when a non-timeout
exception failure brings the consecutive error count to the threshold
(timed-out calls increment the count but never flip the status); while a
service is Unhealthy every call to it is refused with a failed result,
zero network requests and an unchanged registry, and the status remains
Unhealthy across any sequence of calls and failed probes until a probe of
it succeeds (HTTP 200), which sets it back to Healthy. -/
theorem C4_amended (svcs : MCPC.Services) (t : String) (e : MCPC.ServiceEndpoint)
    (hl : svcs.lookup t = some e) :
    -- (a) threshold flip on the generic-exception path
    (∀ tn p tmo env fuel m, e.status ≠ .unhealthy →
      env.execOutcome = .exn m → e.error_count + 1 ≥ e.max_errors →
      (MCPC.call_service svcs t tn p tmo env fuel).map
        (fun r => (r.1.lookup t).map (fun x => x.status)) =
        some (some .unhealthy)) ∧
    -- (b) circuit open: refusal with no network attempt, registry unchanged
    (e.status = .unhealthy → ∀ tn p tmo env fuel,
      MCPC.call_service svcs t tn p tmo env fuel =
        some (svcs,
          { success := false,
            error := some (.str s!"Service \x27{t}\x27 is unhealthy") }, 0)) ∧
    -- (c) Unhealthy persists, and calls stay refused, until a successful probe
    (e.status = .unhealthy →
      ∀ ops svcs', (∀ op ∈ ops, MCPC.succeedsProbe t op = false) →
      MCPC.runOps svcs ops = some svcs' →
      ((svcs'.lookup t).map (fun x => x.status) = some .unhealthy ∧
        ∀ tn p tmo env fuel,
          MCPC.call_service svcs' t tn p tmo env fuel =
            some (svcs',
              { success := false,
                error := some (.str s!"Service \x27{t}\x27 is unhealthy") }, 0))) ∧
    -- (d) a successful probe restores Healthy
    (∀ env : MCPC.ProbeEnv, ∀ body text, env.outcome = .resp 200 body text →
      ((MCPC.health_check svcs t env).1.lookup t).map (fun x => x.status) =
        some .healthy) := by
  refine ⟨?_, ?_, ?_, ?_⟩
  · intro tn p tmo env fuel m hs ho hth
    simp only [MCPC.call_service, hl]
    rw [if_neg hs]
    simp only [MCPC.callBody, ho, if_pos hth]
    simp [MCPC.lookup_setService_self svcs t _ (by simp [hl])]
  · intro hu tn p tmo env fuel
    simp [MCPC.call_service, hl, hu]
  · intro hu ops svcs' hall hrun
    obtain ⟨e', hl', hu'⟩ :=
      MCPC.runOps_preserves_unhealthy t ops svcs svcs' hall ⟨e, hl, hu⟩ hrun
    refine ⟨by simp [hl', hu'], fun tn p tmo env fuel => ?_⟩
    simp [MCPC.call_service, hl', hu']
  · intro env body text ho
    simp only [MCPC.health_check, hl, ho, beq_self_eq_true, if_pos]
    simp [MCPC.lookup_setService_self svcs t _ (by simp [hl])]

/-- A failed probe environment and a successful probe environment for the
C4 witness. -/
def c4probeFail : MCPC.ProbeEnv := { outcome := .exn "x", now := 4 }

/-- A probe environment answering HTTP 200. -/
def c4probeOk : MCPC.ProbeEnv := { outcome := .resp 200 (.obj []) "", now := 5 }

/-- A registry whose only service is already Unhealthy at the threshold. -/
def c4unhealthy : MCPC.Services := [("a", MCPC.epA .unhealthy 3)]

/-- `c4unhealthy` after one failed probe of `a`. -/
def c4afterProbe : MCPC.Services :=
  [("a", { MCPC.epA .unhealthy 3 with last_check := 4 })]

/-- Witness: the amended C4 instantiated on concrete registries — the
threshold flip via an exception, the refusal while Unhealthy, refusal
persisting after a failed probe, and recovery via a successful probe. -/
theorem C4_amended_witness :
    ((MCPC.call_service c4svcs "a" "t" (.obj []) none MCPC.dummyEnv 1).map
      (fun r => (r.1.lookup "a").map (fun x => x.status)) =
      some (some .unhealthy)) ∧
    (MCPC.call_service c4unhealthy "a" "t" (.obj []) none MCPC.dummyEnv 1 =
      some (c4unhealthy,
        { success := false,
          error := some (.str "Service \x27a\x27 is unhealthy") }, 0)) ∧
    (MCPC.call_service c4afterProbe "a" "t" (.obj []) none MCPC.dummyEnv 1 =
      some (c4afterProbe,
        { success := false,
          error := some (.str "Service \x27a\x27 is unhealthy") }, 0)) ∧
    (((MCPC.health_check c4unhealthy "a" c4probeOk).1.lookup "a").map
      (fun x => x.status) = some .healthy) :=
  ⟨(C4_amended c4svcs "a" (MCPC.epA .healthy 2) rfl).1 "t" (.obj []) none
      MCPC.dummyEnv 1 "boom" (by decide) rfl (by decide),
   (C4_amended c4unhealthy "a" (MCPC.epA .unhealthy 3) rfl).2.1 rfl "t"
      (.obj []) none MCPC.dummyEnv 1,
   ((C4_amended c4unhealthy "a" (MCPC.epA .unhealthy 3) rfl).2.2.1 rfl
      [MCPC.ClientOp.probe "a" c4probeFail] c4afterProbe
      (fun op hop => by rcases List.mem_singleton.mp hop with rfl; rfl)
      rfl).2 "t" (.obj []) none MCPC.dummyEnv 1,
   (C4_amended c4unhealthy "a" (MCPC.epA .unhealthy 3) rfl).2.2.2 c4probeOk
      (.obj []) "" rfl⟩

/-- Registry and environment for the C10 witness: a Degraded service with
2 errors receives an HTTP 503 application-error response. -/
def c10svcs : MCPC.Services := [("a", MCPC.epA .degraded 2)]

/-- Environment answering the execute POST with HTTP 503. -/
def c10env : MCPC.CallEnv :=
  { execOutcome := .resp 503 (.obj []) "unavailable",
    pollOutcome := fun _ => .exn "unused", pollElapsed := fun _ => 0,
    elapsed := 1 }

/-- Witness: C10 applied to a concrete run in which the execute endpoint
answers 503 — the returned result is a failure, yet the service entry ends
Healthy with error count 0 and the latency recorded. -/
theorem C10_response_resets_health_witness :
    (([("a", { MCPC.epA .degraded 2 with
          response_time := 1, error_count := 0,
          status := MCPC.ServiceStatus.healthy })] : MCPC.Services)).lookup "a" =
      some { MCPC.epA .degraded 2 with
        response_time := 1, error_count := 0,
        status := MCPC.ServiceStatus.healthy } :=
  C10_response_resets_health c10svcs "a" "t" (.obj []) none c10env 1
    (MCPC.epA .degraded 2) 503 (.obj []) "unavailable"
    [("a", { MCPC.epA .degraded 2 with
      response_time := 1, error_count := 0,
      status := MCPC.ServiceStatus.healthy })]
    { success := false, error := some (.str "HTTP 503: unavailable"),
      duration := 1, service_name := some "a", tool_name := some "t" } 1
    rfl (by decide) rfl rfl

/-! ## Claim C1 — cyclic dependency graphs and the deadlock guard -/

/-- A `data_fetch` step with the given id and dependencies (parameters as
in the predefined workflows). -/
def mkFetchStep (id : String) (deps : List String) : WFE.WorkflowStep :=
  { id := id, name := id, description := "", step_type := "data_fetch",
    parameters := .obj [("data_type", .str "fire_event"), ("filters", .obj [])],
    dependencies := deps }

/-- The C1 failing input: an instance whose graph has an executable first
step followed by a two-step dependency cycle
(`step_2 → step_3 → step_2`). -/
def c1inst : WFE.WorkflowInstance :=
  { id := "inst-1", workflow_name := "cyclic_workflow", parameters := .obj [],
    steps := [mkFetchStep "step_1" [], mkFetchStep "step_2" ["step_3"],
              mkFetchStep "step_3" ["step_2"]] }

/-- The engine's instance store holding that instance. -/
def c1instances : WFE.Instances := [("inst-1", c1inst)]

/-- The execution state `execute_workflow` builds for `c1inst` before its
scan loop (started at clock 0). -/
def c1st0 : WFE.ExecState :=
  { inst := { c1inst with status := .running, start_time := some 0 },
    completed := [], clock := 1, trace := [] }

/-- The state after the first scan pass: `step_1` Completed, the cycle
untouched.  Every later pass maps this state to itself. -/
def c1st1 : WFE.ExecState :=
  match WFE.scan_steps c1st0 (List.range 3) with
  | .done st => st
  | .earlyReturn st => st
  | .raised st _ => st

/-- A pure two-step cycle with no completable prefix (the spec's
`A depends on B and B depends on A` scenario). -/
def c1pureCycle : WFE.Instances :=
  [("inst-2", { id := "inst-2", workflow_name := "pure_cycle",
                parameters := .obj [],
                steps := [mkFetchStep "step_2" ["step_3"],
                          mkFetchStep "step_3" ["step_2"]] })]

/-- If a scan pass maps a state to itself while completed steps remain
fewer than all steps and the completed set is non-empty, the loop never
terminates: the deadlock guard tests `len(completed_steps) == 0`, which is
false, so every pass repeats forever. -/
theorem exec_loop_stuck (st : WFE.ExecState)
    (hscan : WFE.scan_steps st (List.range st.inst.steps.length) = .done st)
    (hne : st.completed.length ≠ 0)
    (hlt : st.completed.length < st.inst.steps.length) :
    ∀ fuel, WFE.exec_loop fuel st = none := by
  intro fuel
  induction fuel with
  | zero => rw [WFE.exec_loop, if_pos hlt]
  | succ n ih =>
    have hguard : (st.completed.length == 0) = false := by simpa using hne
    rw [WFE.exec_loop, if_pos hlt]
    simp only [hscan, hguard, Bool.false_eq_true, if_false]
    exact ih

/-- Claim C1 fails as a code bug: on an instance whose dependency graph
contains a cycle reached after one completable step, `execute_workflow`
never terminates — for every pass budget it is still looping — because the
guard annotated `# 避免死循环` ("avoid an infinite loop") fires only when
the TOTAL completed count is zero.  By contrast a pure cycle with no
completable prefix does take the guard and ends Failed, which is what the
guard was meant to do for every cycle. -/
theorem C1_cycle_nonterminating :
    (∀ fuel, WFE.execute_workflow c1instances "inst-1" 0 fuel = none) ∧
    ((WFE.execute_workflow c1pureCycle "inst-2" 0 1).map
      (fun r => (r.1.lookup "inst-2").map (fun i => i.status)) =
      some (some .failed)) := by
  constructor
  · intro fuel
    have hmain : ∀ n, WFE.exec_loop n c1st0 = none := by
      intro n
      cases n with
      | zero => rfl
      | succ m =>
        have h1 : WFE.scan_steps c1st0 (List.range 3) = .done c1st1 := rfl
        have h2 : WFE.exec_loop (m + 1) c1st0 = WFE.exec_loop m c1st1 := by
          rw [WFE.exec_loop, if_pos (by decide : c1st0.completed.length < c1st0.inst.steps.length)]
          simp only [show c1st0.inst.steps.length = 3 from rfl, h1]
          rfl
        rw [h2]
        exact exec_loop_stuck c1st1 rfl (by decide) (by decide) m
    show (match WFE.exec_loop fuel c1st0 with
          | none => none
          | some (stF, exc) =>
            some (WFE.setInstance c1instances "inst-1" stF.inst, exc, stF.trace)) = none
    rw [hmain fuel]
  · rfl

/-! ## Engine invariants (shared machinery for C6, C8, C9) -/

namespace WFE

/-- The statuses assigned to step `sid` during a run, in order. -/
def traceOf (sid : String) (tr : Trace) : List StepStatus :=
  (tr.filter (fun p => p.1 == sid)).map (fun p => p.2)

theorem traceOf_append (sid : String) (t1 t2 : Trace) :
    traceOf sid (t1 ++ t2) = traceOf sid t1 ++ traceOf sid t2 := by
  simp [traceOf]

theorem traceOf_block_self (sid : String) (a b : StepStatus) :
    traceOf sid [(sid, a), (sid, b)] = [a, b] := by
  simp [traceOf]

theorem traceOf_block_ne (sid x : String) (a b : StepStatus) (h : x ≠ sid) :
    traceOf sid [(x, a), (x, b)] = [] := by
  simp [traceOf, h]

/-- The invariant maintained by the scan loop between step executions:
every step is Pending or Completed, Completed exactly when its id is in
`completed_steps`; `completed_steps` is a duplicate-free subset of the
step ids; and the trace so far consists of one `running, completed` block
per completed id. -/
structure EngineInv (st : ExecState) : Prop where
  idnd : (st.inst.steps.map (fun s => s.id)).Nodup
  pc : ∀ j s, st.inst.steps.get? j = some s →
    s.status = StepStatus.pending ∨ s.status = StepStatus.completed
  comp : ∀ j s, st.inst.steps.get? j = some s →
    (s.status = StepStatus.completed ↔ s.id ∈ st.completed)
  sub : ∀ c ∈ st.completed, c ∈ st.inst.steps.map (fun s => s.id)
  nodup : st.completed.Nodup
  tr : ∀ sid, (traceOf sid st.trace = [] ∧ sid ∉ st.completed)
      ∨ (traceOf sid st.trace = [StepStatus.running, StepStatus.completed] ∧
         sid ∈ st.completed)

/-- State shape after a step failure aborted the scan: statuses are
Pending, Completed or Failed, every Failed step carries the failing id,
at least one step is Failed, and the trace is made of per-step blocks the
last of which may be `running, failed`. -/
def FailedShape (st : ExecState) : Prop :=
  ∃ fid,
    (∀ j s, st.inst.steps.get? j = some s →
      s.status = StepStatus.pending ∨ s.status = StepStatus.completed ∨
        s.status = StepStatus.failed) ∧
    (∀ j s, st.inst.steps.get? j = some s → s.status = StepStatus.failed →
      s.id = fid) ∧
    (∃ j s, st.inst.steps.get? j = some s ∧ s.status = StepStatus.failed) ∧
    (∀ sid, traceOf sid st.trace = [] ∨
      traceOf sid st.trace = [StepStatus.running, StepStatus.completed] ∨
      traceOf sid st.trace = [StepStatus.running, StepStatus.failed])

/-- With duplicate-free step ids, two positions holding the same id
coincide. -/
theorem nodup_id_index (l : List WorkflowStep)
    (hnd : (l.map (fun s => s.id)).Nodup) (i j : Nat) (step s : WorkflowStep)
    (hi : l.get? i = some step) (hj : l.get? j = some s) (hid : s.id = step.id) :
    i = j := by
  have hlen : i < (l.map (fun s => s.id)).length := by
    rw [List.length_map]
    exact List.get?_eq_some.mp hi |>.1
  apply List.getElem?_inj hlen hnd
  rw [← List.get?_eq_getElem?, ← List.get?_eq_getElem?, List.get?_map,
    List.get?_map, hi, hj]
  simp [hid]

/-- Setting position `i` to a step with the same id leaves the id list
unchanged. -/
theorem map_id_set (l : List WorkflowStep) (i : Nat) (a step : WorkflowStep)
    (hg : l.get? i = some step) (hid : a.id = step.id) :
    (l.set i a).map (fun s => s.id) = l.map (fun s => s.id) := by
  induction l generalizing i with
  | nil => simp
  | cons x xs ih =>
    cases i with
    | zero =>
      simp only [List.get?] at hg
      obtain rfl := Option.some.inj hg
      simp [List.set, hid]
    | succ n =>
      simp only [List.get?] at hg
      simp [List.set, ih n hg]

/-- `_execute_step` characterized: the step at `i` is replaced by a
terminal copy of itself (Completed on `.ok`, Failed on `.error`), the
clock advances, and the trace gains that step's `running, terminal`
block; `completed_steps` and the rest of the instance are untouched. -/
theorem execute_step_spec (i : Nat) (st : ExecState) (step : WorkflowStep)
    (hget : st.inst.steps.get? i = some step) :
    ∃ stp r, execute_step i st =
      ({ inst := { st.inst with steps := st.inst.steps.set i stp },
         completed := st.completed,
         clock := st.clock + 2,
         trace := st.trace ++ [(step.id, StepStatus.running), (step.id, stp.status)] }, r) ∧
      stp.id = step.id ∧
      ((r = Except.ok () ∧ stp.status = StepStatus.completed) ∨
       (∃ e, r = Except.error e ∧ stp.status = StepStatus.failed)) := by
  cases hr : runHandler
      { step with status := StepStatus.running, start_time := some st.clock }
      { st.inst with
          steps := (st.inst.steps.set i
            { step with status := StepStatus.running, start_time := some st.clock }) }
      (st.clock + 1) with
  | ok result =>
    refine ⟨{ step with
                status := StepStatus.completed,
                start_time := some st.clock, result := some result,
                end_time := some (st.clock + 1), execution_time := some 1 },
            Except.ok (), ?_, rfl, Or.inl ⟨rfl, rfl⟩⟩
    simp only [execute_step, hget, setStep, hr, List.set_set, List.append_assoc,
      List.cons_append, List.singleton_append, List.nil_append]
  | error e =>
    refine ⟨{ step with
                status := StepStatus.failed,
                start_time := some st.clock, error := some e,
                end_time := some (st.clock + 1), execution_time := some 1 },
            Except.error e, ?_, rfl, Or.inr ⟨e, rfl, rfl⟩⟩
    simp only [execute_step, hget, setStep, hr, List.set_set, List.append_assoc,
      List.cons_append, List.singleton_append, List.nil_append]

end WFE

namespace WFE

/-- Executing an eligible pending step successfully and appending its id
to `completed_steps` preserves the scan invariant. -/
theorem EngineInv.step_ok (st : ExecState) (i : Nat) (step stp : WorkflowStep)
    (hInv : EngineInv st) (hg : st.inst.steps.get? i = some step)
    (hc : step.id ∉ st.completed) (hid : stp.id = step.id)
    (hstatus : stp.status = StepStatus.completed) :
    EngineInv
      { inst := { st.inst with
          steps := st.inst.steps.set i stp, current_step := some step.id },
        completed := st.completed ++ [step.id],
        clock := st.clock + 2,
        trace := st.trace ++ [(step.id, StepStatus.running), (step.id, stp.status)] } := by
  obtain ⟨hlt, -⟩ := List.get?_eq_some.mp hg
  have hget2 : (st.inst.steps.set i stp).get? i = some stp :=
    List.get?_set_eq_of_lt stp hlt
  constructor
  · show ((st.inst.steps.set i stp).map (fun s => s.id)).Nodup
    rw [map_id_set st.inst.steps i stp step hg hid]
    exact hInv.idnd
  · intro j s hj
    by_cases hji : j = i
    · subst hji
      rw [hget2] at hj
      obtain rfl := Option.some.inj hj
      exact Or.inr hstatus
    · rw [List.get?_set_ne stp st.inst.steps (fun hh => hji hh.symm)] at hj
      exact hInv.pc j s hj
  · intro j s hj
    by_cases hji : j = i
    · subst hji
      rw [hget2] at hj
      obtain rfl := Option.some.inj hj
      exact iff_of_true hstatus (List.mem_append.mpr (Or.inr (by simp [hid])))
    · rw [List.get?_set_ne stp st.inst.steps (fun hh => hji hh.symm)] at hj
      constructor
      · intro hcs
        exact List.mem_append.mpr (Or.inl ((hInv.comp j s hj).mp hcs))
      · intro hmem
        rcases List.mem_append.mp hmem with hmem | hmem
        · exact (hInv.comp j s hj).mpr hmem
        · have hsid : s.id = step.id := by simpa using hmem
          exact absurd (nodup_id_index st.inst.steps hInv.idnd i j step s hg hj hsid).symm hji
  · intro c hcmem
    show c ∈ (st.inst.steps.set i stp).map (fun s => s.id)
    rw [map_id_set st.inst.steps i stp step hg hid]
    rcases List.mem_append.mp hcmem with hcm | hcm
    · exact hInv.sub c hcm
    · have : c = step.id := by simpa using hcm
      subst this
      exact List.mem_map.mpr ⟨step, List.get?_mem hg, rfl⟩
  · exact hInv.nodup.append (List.nodup_singleton _)
      (fun a ha hb => by rw [List.mem_singleton.mp hb] at ha; exact hc ha)
  · intro sid
    rw [traceOf_append]
    by_cases hsid : sid = step.id
    · subst hsid
      rcases hInv.tr step.id with ⟨ht, hn⟩ | ⟨ht, hm⟩
      · refine Or.inr ⟨?_, List.mem_append.mpr (Or.inr (by simp))⟩
        rw [ht, traceOf_block_self, hstatus]
        rfl
      · exact absurd hm hc
    · have hblock : traceOf sid [(step.id, StepStatus.running), (step.id, stp.status)] = [] :=
        traceOf_block_ne sid step.id _ _ (fun hh => hsid hh.symm)
      have hmem : (sid ∈ st.completed ++ [step.id]) ↔ sid ∈ st.completed := by
        simp [hsid]
      rcases hInv.tr sid with ⟨ht, hn⟩ | ⟨ht, hm⟩
      · exact Or.inl ⟨by rw [ht, hblock]; rfl, fun hx => hn (hmem.mp hx)⟩
      · exact Or.inr ⟨by rw [ht, hblock]; simp, hmem.mpr hm⟩

/-- Executing an eligible pending step whose handler raises leaves the
state in the failed shape. -/
theorem failedShape_step (st : ExecState) (i : Nat) (step stp : WorkflowStep)
    (hInv : EngineInv st) (hg : st.inst.steps.get? i = some step)
    (hc : step.id ∉ st.completed) (hid : stp.id = step.id)
    (hstatus : stp.status = StepStatus.failed) :
    FailedShape
      { inst := { st.inst with steps := st.inst.steps.set i stp },
        completed := st.completed,
        clock := st.clock + 2,
        trace := st.trace ++ [(step.id, StepStatus.running), (step.id, stp.status)] } := by
  obtain ⟨hlt, -⟩ := List.get?_eq_some.mp hg
  have hget2 : (st.inst.steps.set i stp).get? i = some stp :=
    List.get?_set_eq_of_lt stp hlt
  refine ⟨step.id, ?_, ?_, ⟨i, stp, hget2, hstatus⟩, ?_⟩
  · intro j s hj
    by_cases hji : j = i
    · subst hji
      rw [hget2] at hj
      obtain rfl := Option.some.inj hj
      exact Or.inr (Or.inr hstatus)
    · rw [List.get?_set_ne stp st.inst.steps (fun hh => hji hh.symm)] at hj
      rcases hInv.pc j s hj with hp | hp
      · exact Or.inl hp
      · exact Or.inr (Or.inl hp)
  · intro j s hj hf
    by_cases hji : j = i
    · subst hji
      rw [hget2] at hj
      obtain rfl := Option.some.inj hj
      exact hid
    · rw [List.get?_set_ne stp st.inst.steps (fun hh => hji hh.symm)] at hj
      rcases hInv.pc j s hj with hp | hp <;> rw [hf] at hp <;> cases hp
  · intro sid
    rw [traceOf_append]
    by_cases hsid : sid = step.id
    · subst hsid
      rcases hInv.tr step.id with ⟨ht, hn⟩ | ⟨ht, hm⟩
      · refine Or.inr (Or.inr ?_)
        rw [ht, traceOf_block_self, hstatus]
        rfl
      · exact absurd hm hc
    · have hblock : traceOf sid [(step.id, StepStatus.running), (step.id, stp.status)] = [] :=
        traceOf_block_ne sid step.id _ _ (fun hh => hsid hh.symm)
      rcases hInv.tr sid with ⟨ht, hn⟩ | ⟨ht, hm⟩
      · exact Or.inl (by rw [ht, hblock]; rfl)
      · exact Or.inr (Or.inl (by rw [ht, hblock]; simp))

end WFE

namespace WFE

/-- One scan pass from an invariant state either finishes normally with
the invariant intact, or aborts with a raised step failure leaving the
failed shape; the step id list is unchanged either way (the early-return
branch of the source is dead code: a normally returned step is Completed,
never Failed). -/
theorem scan_steps_cases (l : List Nat) (st : ExecState) (hInv : EngineInv st) :
    (∃ st', scan_steps st l = .done st' ∧ EngineInv st' ∧
      st'.inst.steps.map (fun s => s.id) = st.inst.steps.map (fun s => s.id)) ∨
    (∃ st' e, scan_steps st l = .raised st' e ∧ FailedShape st' ∧
      st'.inst.steps.map (fun s => s.id) = st.inst.steps.map (fun s => s.id)) := by
  induction l generalizing st with
  | nil => exact Or.inl ⟨st, rfl, hInv, rfl⟩
  | cons i rest ih =>
    cases hg : st.inst.steps.get? i with
    | none =>
      have hstep : scan_steps st (i :: rest) = scan_steps st rest := by
        simp only [scan_steps, hg]
      rw [hstep]
      exact ih st hInv
    | some step =>
      by_cases hc : step.id ∈ st.completed
      · have hc' : st.completed.contains step.id = true := by simpa using hc
        have hstep : scan_steps st (i :: rest) = scan_steps st rest := by
          simp only [scan_steps, hg, hc', if_true]
        rw [hstep]
        exact ih st hInv
      · have hc' : st.completed.contains step.id = false := by simpa using hc
        cases hd : step.dependencies.all (fun d => st.completed.contains d) with
        | false =>
          have hstep : scan_steps st (i :: rest) = scan_steps st rest := by
            simp only [scan_steps, hg, hc', hd, Bool.false_eq_true, if_false]
          rw [hstep]
          exact ih st hInv
        | true =>
          obtain ⟨stp, r, heq, hid, hcase⟩ := execute_step_spec i st step hg
          obtain ⟨hlt, -⟩ := List.get?_eq_some.mp hg
          have hget2 : (st.inst.steps.set i stp).get? i = some stp :=
            List.get?_set_eq_of_lt stp hlt
          rcases hcase with ⟨hrok, hstatus⟩ | ⟨e, hrerr, hstatus⟩
          · subst hrok
            have hstep : scan_steps st (i :: rest) =
                scan_steps
                  { inst := { st.inst with
                      steps := st.inst.steps.set i stp,
                      current_step := some step.id },
                    completed := st.completed ++ [step.id],
                    clock := st.clock + 2,
                    trace := st.trace ++
                      [(step.id, StepStatus.running), (step.id, stp.status)] }
                  rest := by
              simp only [scan_steps, hg, hc', hd, Bool.false_eq_true, if_false,
                if_true, heq, hget2, hstatus]
              rw [if_neg (by simp : ¬ (StepStatus.completed = StepStatus.failed))]
            rw [hstep]
            have hInv' := EngineInv.step_ok st i step stp hInv hg hc hid hstatus
            rcases ih _ hInv' with ⟨st', hs', hi', hm'⟩ | ⟨st', e', hs', hf', hm'⟩
            · refine Or.inl ⟨st', hs', hi', ?_⟩
              rw [hm']
              exact map_id_set st.inst.steps i stp step hg hid
            · refine Or.inr ⟨st', e', hs', hf', ?_⟩
              rw [hm']
              exact map_id_set st.inst.steps i stp step hg hid
          · subst hrerr
            have hstep : scan_steps st (i :: rest) =
                .raised
                  { inst := { st.inst with steps := st.inst.steps.set i stp },
                    completed := st.completed,
                    clock := st.clock + 2,
                    trace := st.trace ++
                      [(step.id, StepStatus.running), (step.id, stp.status)] }
                  e := by
              simp only [scan_steps, hg, hc', hd, Bool.false_eq_true, if_false,
                if_true, heq]
            refine Or.inr ⟨_, e, hstep, ?_, ?_⟩
            · exact failedShape_step st i step stp hInv hg hc hid hstatus
            · exact map_id_set st.inst.steps i stp step hg hid

end WFE

namespace WFE

theorem exec_loop_succ (n : Nat) (st : ExecState)
    (hlt : st.completed.length < st.inst.steps.length) :
    exec_loop (n + 1) st =
      match scan_steps st (List.range st.inst.steps.length) with
      | .raised st' e => some (markFailed st', .error e)
      | .earlyReturn st' => some (st', .ok ())
      | .done st' =>
        if st'.completed.length == 0 then some (markFailed st', .ok ())
        else exec_loop n st' := by
  rw [exec_loop, if_pos hlt]

/-- Whenever `exec_loop` lets an exception escape, it has already marked
the instance Failed (the outer `except` clause runs before the
re-raise). -/
theorem exec_loop_error_failed (fuel : Nat) : ∀ (st stF : ExecState) (e : String),
    exec_loop fuel st = some (stF, .error e) →
    stF.inst.status = WorkflowStatus.failed := by
  induction fuel with
  | zero =>
    intro st stF e h
    rw [exec_loop] at h
    by_cases hlt : st.completed.length < st.inst.steps.length
    · rw [if_pos hlt] at h
      cases h
    · rw [if_neg hlt] at h
      simp only [Option.some.injEq, Prod.mk.injEq] at h
      obtain ⟨-, hexc⟩ := h
      cases hexc
  | succ n ih =>
    intro st stF e h
    by_cases hlt : st.completed.length < st.inst.steps.length
    · rw [exec_loop_succ n st hlt] at h
      cases hscan : scan_steps st (List.range st.inst.steps.length) with
      | raised st' e' =>
        rw [hscan] at h
        simp only [Option.some.injEq, Prod.mk.injEq] at h
        obtain ⟨rfl, -⟩ := h
        rfl
      | earlyReturn st' =>
        rw [hscan] at h
        simp only [Option.some.injEq, Prod.mk.injEq] at h
        obtain ⟨-, hexc⟩ := h
        cases hexc
      | done st' =>
        rw [hscan] at h
        dsimp only at h
        cases hguard : st'.completed.length == 0 with
        | true =>
          rw [hguard] at h
          simp only [if_true, Option.some.injEq, Prod.mk.injEq] at h
          obtain ⟨-, hexc⟩ := h
          cases hexc
        | false =>
          rw [hguard] at h
          simp only [Bool.false_eq_true, if_false] at h
          exact ih st' stF e h
    · rw [exec_loop, if_neg hlt] at h
      simp only [Option.some.injEq, Prod.mk.injEq] at h
      obtain ⟨-, hexc⟩ := h
      cases hexc

/-- When the loop exits because all step ids are completed, every step is
Completed (counting argument over the duplicate-free completed list). -/
theorem all_completed_of_full (st : ExecState) (hInv : EngineInv st)
    (hge : ¬ st.completed.length < st.inst.steps.length) :
    ∀ j s, st.inst.steps.get? j = some s → s.status = StepStatus.completed := by
  intro j s hj
  have hsub : st.completed.toFinset ⊆
      (st.inst.steps.map (fun s => s.id)).toFinset := by
    intro x hx
    exact List.mem_toFinset.mpr (hInv.sub x (List.mem_toFinset.mp hx))
  have hcard : (st.inst.steps.map (fun s => s.id)).toFinset.card ≤
      st.completed.toFinset.card := by
    calc (st.inst.steps.map (fun s => s.id)).toFinset.card
        ≤ (st.inst.steps.map (fun s => s.id)).length := List.toFinset_card_le _
      _ = st.inst.steps.length := List.length_map _ _
      _ ≤ st.completed.length := Nat.le_of_not_lt hge
      _ = st.completed.toFinset.card :=
          (List.toFinset_card_of_nodup hInv.nodup).symm
  have heq := Finset.eq_of_subset_of_card_le hsub hcard
  have hmem : s.id ∈ st.completed := by
    have h1 : s.id ∈ (st.inst.steps.map (fun s => s.id)).toFinset :=
      List.mem_toFinset.mpr (List.mem_map.mpr ⟨s, List.get?_mem hj, rfl⟩)
    rw [← heq] at h1
    exact List.mem_toFinset.mp h1
  exact (hInv.comp j s hj).mpr hmem

/-- What holds of the final state and exception of a terminated
`exec_loop` run started from an invariant state. -/
def RunConclusions (stF : ExecState) (exc : Except String Unit) : Prop :=
  (∀ j s, stF.inst.steps.get? j = some s →
    s.status = StepStatus.pending ∨ s.status = StepStatus.completed ∨
      s.status = StepStatus.failed) ∧
  ((∃ j s, stF.inst.steps.get? j = some s ∧ s.status = StepStatus.failed) →
    stF.inst.status = WorkflowStatus.failed) ∧
  (∀ j s j' s', stF.inst.steps.get? j = some s →
    stF.inst.steps.get? j' = some s' → s.status = StepStatus.failed →
    s'.status = StepStatus.failed → j = j') ∧
  (stF.inst.status = WorkflowStatus.completed →
    ∀ j s, stF.inst.steps.get? j = some s → s.status = StepStatus.completed) ∧
  (∀ sid, traceOf sid stF.trace = [] ∨
    traceOf sid stF.trace = [StepStatus.running, StepStatus.completed] ∨
    traceOf sid stF.trace = [StepStatus.running, StepStatus.failed]) ∧
  (∀ e, exc = Except.error e → stF.inst.status = WorkflowStatus.failed)

theorem exec_loop_final (fuel : Nat) : ∀ (st stF : ExecState)
    (exc : Except String Unit), EngineInv st →
    exec_loop fuel st = some (stF, exc) → RunConclusions stF exc := by
  induction fuel with
  | zero =>
    intro st stF exc hInv h
    rw [exec_loop] at h
    by_cases hlt : st.completed.length < st.inst.steps.length
    · rw [if_pos hlt] at h
      cases h
    · rw [if_neg hlt] at h
      simp only [Option.some.injEq, Prod.mk.injEq] at h
      obtain ⟨rfl, rfl⟩ := h
      have hall := all_completed_of_full st hInv hlt
      refine ⟨?_, ?_, ?_, ?_, ?_, ?_⟩
      · intro j s hj
        exact Or.inr (Or.inl (hall j s hj))
      · rintro ⟨j, s, hj, hf⟩
        rw [hall j s hj] at hf
        cases hf
      · intro j s j' s' hj hj' hf hf'
        rw [hall j s hj] at hf
        cases hf
      · intro _ j s hj
        exact hall j s hj
      · intro sid
        rcases hInv.tr sid with ⟨ht, -⟩ | ⟨ht, -⟩
        · exact Or.inl ht
        · exact Or.inr (Or.inl ht)
      · intro e he
        cases he
  | succ n ih =>
    intro st stF exc hInv h
    by_cases hlt : st.completed.length < st.inst.steps.length
    · rw [exec_loop_succ n st hlt] at h
      rcases scan_steps_cases (List.range st.inst.steps.length) st hInv with
        ⟨st', hs', hInv', hm'⟩ | ⟨st', e', hs', hf', hm'⟩
      · rw [hs'] at h
        dsimp only at h
        cases hguard : st'.completed.length == 0 with
        | true =>
          rw [hguard] at h
          simp only [if_true, Option.some.injEq, Prod.mk.injEq] at h
          obtain ⟨rfl, rfl⟩ := h
          refine ⟨?_, fun _ => rfl, ?_, ?_, ?_, fun _ _ => rfl⟩
          · intro j s hj
            rcases hInv'.pc j s hj with hp | hp
            · exact Or.inl hp
            · exact Or.inr (Or.inl hp)
          · intro j s j' s' hj hj' hf hf'
            rcases hInv'.pc j s hj with hp | hp <;> rw [hf] at hp <;> cases hp
          · intro hcc
            simp only [markFailed] at hcc
            cases hcc
          · intro sid
            rcases hInv'.tr sid with ⟨ht, -⟩ | ⟨ht, -⟩
            · exact Or.inl ht
            · exact Or.inr (Or.inl ht)
        | false =>
          rw [hguard] at h
          simp only [Bool.false_eq_true, if_false] at h
          exact ih st' stF exc hInv' h
      · rw [hs'] at h
        simp only [Option.some.injEq, Prod.mk.injEq] at h
        obtain ⟨rfl, rfl⟩ := h
        obtain ⟨fid, hstat, hfid, -, htr⟩ := hf'
        have hnd : (st'.inst.steps.map (fun s => s.id)).Nodup := by
          rw [hm']
          exact hInv.idnd
        refine ⟨hstat, fun _ => rfl, ?_, ?_, htr, fun _ _ => rfl⟩
        · intro j s j' s' hj hj' hf hf'
          exact nodup_id_index st'.inst.steps hnd j j' s s' hj hj'
            (by rw [hfid j' s' hj' hf', hfid j s hj hf])
        · intro hcc
          simp only [markFailed] at hcc
          cases hcc
    · rw [exec_loop, if_neg hlt] at h
      simp only [Option.some.injEq, Prod.mk.injEq] at h
      obtain ⟨rfl, rfl⟩ := h
      have hall := all_completed_of_full st hInv hlt
      refine ⟨?_, ?_, ?_, ?_, ?_, ?_⟩
      · intro j s hj
        exact Or.inr (Or.inl (hall j s hj))
      · rintro ⟨j, s, hj, hf⟩
        rw [hall j s hj] at hf
        cases hf
      · intro j s j' s' hj hj' hf hf'
        rw [hall j s hj] at hf
        cases hf
      · intro _ j s hj
        exact hall j s hj
      · intro sid
        rcases hInv.tr sid with ⟨ht, -⟩ | ⟨ht, -⟩
        · exact Or.inl ht
        · exact Or.inr (Or.inl ht)
      · intro e he
        cases he

end WFE

namespace WFE

theorem lookup_setInstance_self (m : Instances) (iid : String)
    (v : WorkflowInstance) (h : (m.lookup iid).isSome) :
    (setInstance m iid v).lookup iid = some v := by
  induction m with
  | nil => simp [List.lookup] at h
  | cons p rest ih =>
    obtain ⟨k, w⟩ := p
    by_cases hk : k = iid
    · subst hk
      simp only [setInstance, List.map, beq_self_eq_true, cond_true, List.lookup]
    · have h1 : (k == iid) = false := by simpa using hk
      have h2 : (iid == k) = false := by simpa using Ne.symm hk
      simp only [setInstance, List.map, h1, cond_false, List.lookup, h2] at h ⊢
      exact ih h

/-- The invariant holds for the state `execute_workflow` builds from a
freshly started instance (all steps Pending, duplicate-free ids). -/
theorem initInv (inst : WorkflowInstance) (clock : Nat)
    (hpend : ∀ s ∈ inst.steps, s.status = StepStatus.pending)
    (hnd : (inst.steps.map (fun s => s.id)).Nodup) :
    EngineInv
      { inst := { inst with
          status := WorkflowStatus.running, start_time := some clock },
        completed := [], clock := clock + 1, trace := [] } := by
  constructor
  · exact hnd
  · intro j s hj
    exact Or.inl (hpend s (List.get?_mem hj))
  · intro j s hj
    constructor
    · intro hcs
      rw [hpend s (List.get?_mem hj)] at hcs
      cases hcs
    · intro hmem
      cases hmem
  · intro c hc
    cases hc
  · exact List.nodup_nil
  · intro sid
    exact Or.inl ⟨rfl, fun hx => (List.not_mem_nil sid) hx⟩

/-- `execute_workflow` on a known instance is the scan loop run from the
initial state, its result written back into the store. -/
theorem execute_workflow_run (instances : Instances) (iid : String)
    (clock fuel : Nat) (inst : WorkflowInstance) (insts' : Instances)
    (exc : Except String Unit) (trace : Trace)
    (hl : instances.lookup iid = some inst)
    (h : execute_workflow instances iid clock fuel = some (insts', exc, trace)) :
    ∃ stF, exec_loop fuel
        { inst := { inst with
            status := WorkflowStatus.running, start_time := some clock },
          completed := [], clock := clock + 1, trace := [] } = some (stF, exc) ∧
      insts' = setInstance instances iid stF.inst ∧ trace = stF.trace := by
  simp only [execute_workflow, hl] at h
  cases he : exec_loop fuel
      { inst := { inst with
          status := WorkflowStatus.running, start_time := some clock },
        completed := [], clock := clock + 1, trace := [] } with
  | none => rw [he] at h; cases h
  | some v =>
    obtain ⟨stF, exc'⟩ := v
    rw [he] at h
    simp only [Option.some.injEq, Prod.mk.injEq] at h
    obtain ⟨h1, h2, h3⟩ := h
    exact ⟨stF, by rw [← h2], h1.symm, h3.symm⟩

end WFE

/-! ## Claim C8 — fail-fast and completion -/

/-- Claim C8 (confirmed): for every instance started fresh (all steps
Pending, duplicate-free ids), when `execute_workflow` terminates the final
instance has every step Pending, Completed or Failed (never left Running),
at most one step Failed; if any step is Failed the instance is Failed (the
engine stopped dispatching at that step, leaving the rest Pending); and
the instance is Completed only when every step is Completed. -/
theorem C8_fail_fast (instances : WFE.Instances) (iid : String)
    (clock fuel : Nat) (inst : WFE.WorkflowInstance) (insts' : WFE.Instances)
    (exc : Except String Unit) (trace : WFE.Trace)
    (hl : instances.lookup iid = some inst)
    (hpend : ∀ s ∈ inst.steps, s.status = WFE.StepStatus.pending)
    (hnd : (inst.steps.map (fun s => s.id)).Nodup)
    (h : WFE.execute_workflow instances iid clock fuel = some (insts', exc, trace)) :
    ∃ instF, insts'.lookup iid = some instF ∧
      (∀ j s, instF.steps.get? j = some s →
        s.status = WFE.StepStatus.pending ∨ s.status = WFE.StepStatus.completed ∨
          s.status = WFE.StepStatus.failed) ∧
      ((∃ j s, instF.steps.get? j = some s ∧ s.status = WFE.StepStatus.failed) →
        instF.status = WFE.WorkflowStatus.failed) ∧
      (∀ j s j' s', instF.steps.get? j = some s → instF.steps.get? j' = some s' →
        s.status = WFE.StepStatus.failed → s'.status = WFE.StepStatus.failed →
        j = j') ∧
      (instF.status = WFE.WorkflowStatus.completed →
        ∀ j s, instF.steps.get? j = some s →
          s.status = WFE.StepStatus.completed) := by
  obtain ⟨stF, he, rfl, rfl⟩ :=
    WFE.execute_workflow_run instances iid clock fuel inst insts' exc trace hl h
  obtain ⟨r1, r2, r3, r4, -, -⟩ :=
    WFE.exec_loop_final fuel _ stF exc (WFE.initInv inst clock hpend hnd) he
  exact ⟨stF.inst,
    WFE.lookup_setInstance_self instances iid stF.inst (by simp [hl]),
    r1, r2, r3, r4⟩

/-- A step whose type no handler supports (fails when dispatched). -/
def bogusStep (id : String) (deps : List String) : WFE.WorkflowStep :=
  { id := id, name := id, description := "", step_type := "bogus",
    parameters := .obj [], dependencies := deps }

/-- C8 witness instance: its first step fails, its second never runs. -/
def c8inst : WFE.WorkflowInstance :=
  { id := "i8", workflow_name := "w8", parameters := .obj [],
    steps := [bogusStep "step_1" [], mkFetchStep "step_2" ["step_1"]] }

/-- Store holding `c8inst`. -/
def c8instances : WFE.Instances := [("i8", c8inst)]

/-- The terminated run of `c8inst` (store, exception, trace). -/
def c8out : WFE.Instances × Except String Unit × WFE.Trace :=
  (WFE.execute_workflow c8instances "i8" 0 2).getD ([], .ok (), [])

/-- Witness: C8 applied to the concrete failing run of `c8inst`. -/
theorem C8_fail_fast_witness :
    ∃ instF, (c8out.1).lookup "i8" = some instF ∧
      (∀ j s, instF.steps.get? j = some s →
        s.status = WFE.StepStatus.pending ∨ s.status = WFE.StepStatus.completed ∨
          s.status = WFE.StepStatus.failed) ∧
      ((∃ j s, instF.steps.get? j = some s ∧ s.status = WFE.StepStatus.failed) →
        instF.status = WFE.WorkflowStatus.failed) ∧
      (∀ j s j' s', instF.steps.get? j = some s → instF.steps.get? j' = some s' →
        s.status = WFE.StepStatus.failed → s'.status = WFE.StepStatus.failed →
        j = j') ∧
      (instF.status = WFE.WorkflowStatus.completed →
        ∀ j s, instF.steps.get? j = some s →
          s.status = WFE.StepStatus.completed) :=
  C8_fail_fast c8instances "i8" 0 2 c8inst c8out.1 c8out.2.1 c8out.2.2
    rfl (by decide) (by decide) rfl

/-! ## Claim C9 — monotonic step status transitions -/

/-- Claim C9 (confirmed): in any terminated `execute_workflow` run of a
freshly started instance, the sequence of statuses each step passes
through (Pending followed by the statuses assigned to it, in order) is
strictly increasing in lifecycle rank — Pending → Running → terminal —
so no step ever returns from a terminal status to Pending or Running;
and `cancel_workflow`, the only other operation touching a live instance,
never changes any step's status. -/
theorem C9_monotonic (instances : WFE.Instances) (iid : String)
    (clock fuel : Nat) (inst : WFE.WorkflowInstance) (insts' : WFE.Instances)
    (exc : Except String Unit) (trace : WFE.Trace)
    (hl : instances.lookup iid = some inst)
    (hpend : ∀ s ∈ inst.steps, s.status = WFE.StepStatus.pending)
    (hnd : (inst.steps.map (fun s => s.id)).Nodup)
    (h : WFE.execute_workflow instances iid clock fuel = some (insts', exc, trace)) :
    (∀ sid, List.Chain' (fun a b => WFE.statusRank a < WFE.statusRank b)
      (WFE.StepStatus.pending :: WFE.traceOf sid trace)) ∧
    (∀ (m : WFE.Instances) (iid2 : String) (c2 : Nat)
       (inst2 : WFE.WorkflowInstance),
      m.lookup iid2 = some inst2 →
      ¬(inst2.status = WFE.WorkflowStatus.completed ∨
        inst2.status = WFE.WorkflowStatus.failed) →
      ((WFE.cancel_workflow m iid2 c2).1.lookup iid2).map (fun i => i.steps) =
        some inst2.steps) := by
  constructor
  · obtain ⟨stF, he, rfl, rfl⟩ :=
      WFE.execute_workflow_run instances iid clock fuel inst insts' exc trace hl h
    obtain ⟨-, -, -, -, r5, -⟩ :=
      WFE.exec_loop_final fuel _ stF exc (WFE.initInv inst clock hpend hnd) he
    intro sid
    rcases r5 sid with ht | ht | ht <;> rw [ht] <;>
      simp [List.chain'_cons, List.chain'_singleton, WFE.statusRank]
  · intro m iid2 c2 inst2 hl2 hterm
    simp only [WFE.cancel_workflow, hl2]
    rw [if_neg hterm]
    rw [WFE.lookup_setInstance_self m iid2 _ (by simp [hl2])]
    rfl

/-- C9 witness instance: a two-step chain that completes. -/
def c9inst : WFE.WorkflowInstance :=
  { id := "i9", workflow_name := "w9", parameters := .obj [],
    steps := [mkFetchStep "step_1" [], mkFetchStep "step_2" ["step_1"]] }

/-- Store holding `c9inst`. -/
def c9instances : WFE.Instances := [("i9", c9inst)]

/-- The terminated run of `c9inst`. -/
def c9out : WFE.Instances × Except String Unit × WFE.Trace :=
  (WFE.execute_workflow c9instances "i9" 0 3).getD ([], .ok (), [])

/-- Witness: C9 applied to the completed run of `c9inst` and to a
concrete cancellation. -/
theorem C9_monotonic_witness :
    (List.Chain' (fun a b => WFE.statusRank a < WFE.statusRank b)
      (WFE.StepStatus.pending :: WFE.traceOf "step_1" c9out.2.2)) ∧
    ((WFE.cancel_workflow c9instances "i9" 7).1.lookup "i9").map
      (fun i => i.steps) = some c9inst.steps :=
  ⟨(C9_monotonic c9instances "i9" 0 3 c9inst c9out.1 c9out.2.1 c9out.2.2
      rfl (by decide) (by decide) rfl).1 "step_1",
   (C9_monotonic c9instances "i9" 0 3 c9inst c9out.1 c9out.2.1 c9out.2.2
      rfl (by decide) (by decide) rfl).2 c9instances "i9" 7 c9inst rfl
      (by decide)⟩

/-! ## Claim C6 — exception propagation -/

/-- Claim C6 is false on the code: `execute_workflow` raises `ValueError`
(here: returns on its exception channel) for an unknown instance id
instead of encoding the failure in a status. -/
theorem C6_counterexample :
    WFE.execute_workflow [] "missing" 0 1 =
      some ([], .error "ValueError: 工作流实例 missing 不存在", []) := rfl

/-- Claim C6 (amended): no exception escapes `call_service` — every
exception raised inside its `try:` body is converted into a returned
failed `MCPCallResult` — but `execute_workflow` does let exceptions
escape: it raises `ValueError` for an unknown instance id, and it
re-raises a failed step's exception after marking the instance Failed. -/
theorem C6_amended :
    (∀ (svcs : MCPC.Services) (sn tn : String) (p : JsonVal) (tmo : Option Nat)
       (env : MCPC.CallEnv) (fuel : Nat) (e : MCPC.ServiceEndpoint)
       (pe : MCPC.PyExc),
      svcs.lookup sn = some e → e.status ≠ .unhealthy →
      MCPC.callBody e sn tn env (tmo.getD e.timeout) fuel = .error pe →
      ∃ svcs' res, MCPC.call_service svcs sn tn p tmo env fuel =
        some (svcs', res, 1) ∧ res.success = false) ∧
    (∀ (instances : WFE.Instances) (iid : String) (clock fuel : Nat),
      instances.lookup iid = none →
      WFE.execute_workflow instances iid clock fuel =
        some (instances, .error s!"ValueError: 工作流实例 {iid} 不存在", [])) ∧
    (∀ (instances : WFE.Instances) (iid : String) (clock fuel : Nat)
       (inst : WFE.WorkflowInstance) (insts' : WFE.Instances) (e : String)
       (trace : WFE.Trace),
      instances.lookup iid = some inst →
      WFE.execute_workflow instances iid clock fuel =
        some (insts', .error e, trace) →
      ∃ instF, insts'.lookup iid = some instF ∧
        instF.status = WFE.WorkflowStatus.failed) := by
  refine ⟨?_, ?_, ?_⟩
  · intro svcs sn tn p tmo env fuel e pe hl hs hb
    cases pe with
    | timeoutError =>
      refine ⟨MCPC.setService svcs sn { e with error_count := e.error_count + 1 },
        { success := false,
          error := some (.str s!"Request to \x27{sn}\x27 timed out"),
          service_name := some sn, tool_name := some tn,
          duration := env.elapsed }, ?_, rfl⟩
      simp only [MCPC.call_service, hl]
      rw [if_neg hs]
      simp only [hb]
    | exn m =>
      refine ⟨MCPC.setService svcs sn
        { e with
            error_count := e.error_count + 1,
            status := if e.error_count + 1 ≥ e.max_errors then .unhealthy
                      else e.status },
        { success := false,
          error := some (.str s!"Request to \x27{sn}\x27 failed: {m}"),
          service_name := some sn, tool_name := some tn,
          duration := env.elapsed }, ?_, rfl⟩
      simp only [MCPC.call_service, hl]
      rw [if_neg hs]
      simp only [hb]
  · intro instances iid clock fuel hl
    simp [WFE.execute_workflow, hl]
  · intro instances iid clock fuel inst insts' e trace hl h
    obtain ⟨stF, he, rfl, rfl⟩ :=
      WFE.execute_workflow_run instances iid clock fuel inst insts'
        (.error e) trace hl h
    exact ⟨stF.inst,
      WFE.lookup_setInstance_self instances iid stF.inst (by simp [hl]),
      WFE.exec_loop_error_failed fuel _ stF e he⟩

/-- Witness: the amended C6 instantiated — a concrete raised exception
handled by `call_service`, a concrete unknown-instance `ValueError`, and
the concrete failing run of `c8inst` whose exception escaped with the
instance marked Failed. -/
theorem C6_amended_witness :
    (∃ svcs' res, MCPC.call_service c7svcs "a" "t" (.obj []) none
        MCPC.dummyEnv 1 = some (svcs', res, 1) ∧ res.success = false) ∧
    (WFE.execute_workflow [] "nope" 0 1 =
      some ([], .error "ValueError: 工作流实例 nope 不存在", [])) ∧
    (∃ instF, (c8out.1).lookup "i8" = some instF ∧
      instF.status = WFE.WorkflowStatus.failed) :=
  ⟨C6_amended.1 c7svcs "a" "t" (.obj []) none MCPC.dummyEnv 1
      (MCPC.epA .healthy 0) (.exn "boom") rfl (by decide) rfl,
   C6_amended.2.1 [] "nope" 0 1 rfl,
   C6_amended.2.2 c8instances "i8" 0 2 c8inst c8out.1
      "不支持的步骤类型: bogus" c8out.2.2 rfl rfl⟩
